import Mathlib

/-!
HLN Tableros Eléctricos, `assets/js/main.js`.

A shallow embedding of the page script: the contact-form validator and
submission handler, the two looping logo strips, the video slide switcher, the
statistics counter and the two tab panels, followed by the properties proved
about them.

JavaScript strings are modelled as their sequence of UTF-16 code units, the
document as an array of elements addressed by position, and a handler as a
function from the page before the call to the page after it together with its
completion (normal, or an uncaught exception).
-/

namespace HLN

/-! ## Strings -/

/-- A JavaScript string: its UTF-16 code units. -/
abbrev JSString := List Nat

/-- UTF-16 encoding of one code point. -/
def utf16 (c : Char) : List Nat :=
  if c.toNat < 0x10000 then [c.toNat]
  else [0xD800 + (c.toNat - 0x10000) / 0x400, 0xDC00 + (c.toNat - 0x10000) % 0x400]

/-- The JavaScript string denoted by a source literal. -/
def lit (s : String) : JSString := s.toList.flatMap utf16

/-- ECMAScript `WhiteSpace` and `LineTerminator` code units: what
`String.prototype.trim` strips and what `\s` matches. -/
def isWhiteSpace (c : Nat) : Bool :=
  c == 0x09 || c == 0x0A || c == 0x0B || c == 0x0C || c == 0x0D || c == 0x20 ||
  c == 0xA0 || c == 0x1680 || (0x2000 ≤ c && c ≤ 0x200A) ||
  c == 0x2028 || c == 0x2029 || c == 0x202F || c == 0x205F || c == 0x3000 || c == 0xFEFF

/-- Models `String.prototype.trim`. -/
def trim (s : JSString) : JSString :=
  ((s.dropWhile isWhiteSpace).reverse.dropWhile isWhiteSpace).reverse

/-! ## Regular expressions

A backtracking matcher maps the remaining input to every remainder it can
leave behind. -/

/-- A regular-expression fragment as a backtracking matcher. -/
abbrev Matcher := JSString → List JSString

/-- A single code unit satisfying `p` (a literal or a character class). -/
def Matcher.one (p : Nat → Bool) : Matcher
  | [] => []
  | c :: cs => if p c then [cs] else []

/-- Models `[...]+`: one or more code units satisfying `p`. -/
def Matcher.plus (p : Nat → Bool) : Matcher
  | [] => []
  | c :: cs => if p c then cs :: Matcher.plus p cs else []

/-- Concatenation of two fragments. -/
def Matcher.seq (m₁ m₂ : Matcher) : Matcher :=
  fun s => (m₁ s).flatMap m₂

/-- Models `RegExp.prototype.test` for a pattern anchored as `^...$`. -/
def Matcher.test (m : Matcher) (s : JSString) : Bool :=
  (m s).any List.isEmpty

/-- The class `[^\s@]`. -/
def notSpaceAt (c : Nat) : Bool := !isWhiteSpace c && c != 0x40

/-- Models `/^[^\s@]+@[^\s@]+\.[^\s@]+$/`. -/
def emailRegex : Matcher :=
  (Matcher.plus notSpaceAt).seq <| (Matcher.one (· == 0x40)).seq <|
  (Matcher.plus notSpaceAt).seq <| (Matcher.one (· == 0x2E)).seq <|
  Matcher.plus notSpaceAt

/-! ## Values and exceptions -/

/-- The values `validateField` receives: an input's `value` or a checkbox's `checked`. -/
inductive Value
  | str (s : JSString)
  | bool (b : Bool)
  deriving DecidableEq, Repr

/-- Models `ToBoolean`. -/
def Value.truthy : Value → Bool
  | .str s => !s.isEmpty
  | .bool b => b

/-- Models `ToString`. -/
def Value.toJSString : Value → JSString
  | .str s => s
  | .bool true => lit "true"
  | .bool false => lit "false"

/-- Exceptions the script can raise. -/
inductive JSError
  | typeError
  | networkError
  | syntaxError
  deriving DecidableEq, Repr

deriving instance DecidableEq for Except

/-! ## The document -/

/-- An element of the document. Element references are positions in `Page.elems`. The
fields from `value` on describe a form control and keep their defaults elsewhere. -/
structure Element where
  id : JSString := []
  classList : List JSString := []
  textContent : JSString := []
  parentElement : Option Nat := none
  /-- The `value` property: for a checkbox `'on'` or its `value` attribute. -/
  value : JSString := []
  /-- The `checked` property of an input. -/
  checked : Bool := false
  /-- The value a text control, text area or select has before any edit and after a
  reset: its default as the control's type sanitises it. -/
  defaultValue : JSString := []
  /-- The `defaultChecked` property: whether an input has the `checked` attribute. -/
  defaultChecked : Bool := false
  disabled : Bool := false
  name : JSString := []
  /-- The `type` property of a control: `'text'`, `'checkbox'`, `'textarea'`, ... -/
  type : JSString := []
  /-- The form that owns the control. -/
  form : Option Nat := none
  deriving DecidableEq, Repr

/-- A request handed to `fetch`. -/
structure Request where
  url : JSString
  method : JSString
  body : List (JSString × JSString)
  deriving DecidableEq, Repr

/-- A callback registered by `showMessage` with `setTimeout`; it captures `type`. -/
structure Timer where
  delay : Nat
  type : JSString
  deriving DecidableEq, Repr

/-- The document: its elements in tree order. -/
abbrev Document := List Element

/-- The page as the submit handler sees it: the document, the three module-level
element constants, and the effects a handler leaves behind. -/
structure Page where
  elems : Document := []
  contactForm : Option Nat := none
  formMessage : Option Nat := none
  submitBtn : Option Nat := none
  defaultPrevented : Bool := false
  requests : List Request := []
  timers : List Timer := []
  console : List JSString := []
  scrolledTo : Option Nat := none
  deriving DecidableEq, Repr

/-- A piece of script acting on a state `σ`: from the state before to its completion
and the state after. -/
def JS (σ α : Type) : Type := σ → Except JSError α × σ

instance {σ : Type} : Monad (JS σ) where
  pure a := fun p => (.ok a, p)
  bind m f := fun p =>
    match m p with
    | (.ok a, q) => f a q
    | (.error e, q) => (.error e, q)

instance {σ : Type} : MonadExcept JSError (JS σ) where
  throw e := fun p => (.error e, p)
  tryCatch m h := fun p =>
    match m p with
    | (.ok a, q) => (.ok a, q)
    | (.error e, q) => h e q

instance {σ : Type} : MonadFinally (JS σ) where
  tryFinally' m f := fun p =>
    match m p with
    | (.ok a, q) =>
      match f (some a) q with
      | (.ok b, r) => (.ok (a, b), r)
      | (.error e, r) => (.error e, r)
    | (.error e, q) =>
      match f none q with
      | (.ok _, r) => (.error e, r)
      | (.error e', r) => (.error e', r)

/-- The current state. -/
def getState {σ : Type} : JS σ σ := fun p => (.ok p, p)

/-- A state change that cannot fail. -/
def modifyState {σ : Type} (f : σ → σ) : JS σ Unit := fun p => (.ok (), f p)

/-- Dereference a possibly-null value; `null.x` raises a `TypeError`. -/
def deref {σ α : Type} : Option α → JS σ α
  | some a => pure a
  | none => throw JSError.typeError

/-- Script that only touches `document`, run inside a page. -/
def onDocument {α : Type} (m : JS Document α) : JS Page α :=
  fun p => ((m p.elems).1, { p with elems := (m p.elems).2 })

/-- Apply `f` to the element at position `i`. -/
def updateElem (f : Element → Element) : Nat → Document → Document
  | _, [] => []
  | 0, e :: es => f e :: es
  | i + 1, e :: es => e :: updateElem f i es

/-- Assign to properties of the element `i`. -/
def modifyElem (i : Nat) (f : Element → Element) : JS Document Unit :=
  modifyState (updateElem f i)

/-- Read the element `i`. -/
def readElem (i : Nat) : JS Document Element :=
  fun d => match d[i]? with
    | some e => (.ok e, d)
    | none => (.error JSError.typeError, d)

/-- The first element in tree order whose id is `id`, if any. -/
def findById (id : JSString) (d : Document) : Option Nat :=
  let i := (d.map Element.id).indexOf id
  if id ≠ [] ∧ i < d.length then some i else none

/-- Models `document.getElementById`. -/
def getElementById (id : JSString) : JS Document (Option Nat) :=
  fun d => (.ok (findById id d), d)

/-- Models `classList.add`. -/
def classAdd (c : JSString) (cl : List JSString) : List JSString :=
  if c ∈ cl then cl else cl ++ [c]

/-- Models `classList.remove`. -/
def classRemove (c : JSString) (cl : List JSString) : List JSString :=
  cl.filter (· ≠ c)

/-! ## Validation -/

/-- The object `validateField` returns: keys in insertion order. -/
abbrev Errors := List (JSString × JSString)

/-- Models `value.trim()`; only strings have the method. -/
def Value.trim : Value → JS Document JSString
  | .str s => pure (HLN.trim s)
  | .bool _ => throw JSError.typeError

/-- Models `!value || value.trim().length < min`. -/
def tooShort (value : Value) (min : Nat) : JS Document Bool := do
  if !value.truthy then return true
  return decide ((← value.trim).length < min)

/-- Models `validateField(fieldName, value)`. -/
def validateField (fieldName : JSString) (value : Value) : JS Document Errors := do
  if fieldName = lit "nombre" then
    if ← tooShort value 3 then
      return [(lit "nombre", lit "El nombre debe tener al menos 3 caracteres")]
    return []
  else if fieldName = lit "email" then
    if !value.truthy || !emailRegex.test value.toJSString then
      return [(lit "email", lit "Email inválido")]
    return []
  else if fieldName = lit "asunto" then
    if ← tooShort value 5 then
      return [(lit "asunto", lit "El asunto debe tener al menos 5 caracteres")]
    return []
  else if fieldName = lit "mensaje" then
    if ← tooShort value 10 then
      return [(lit "mensaje", lit "El mensaje debe tener al menos 10 caracteres")]
    return []
  else if fieldName = lit "terminos" then
    let terminos ← readElem (← deref (← getElementById (lit "terminos")))
    if !terminos.checked then
      return [(lit "terminos", lit "Debes aceptar los términos")]
    return []
  else
    return []

/-- Models `Object.keys(errors).length > 0`. -/
def Errors.nonEmpty (errors : Errors) : Bool := decide (errors.length > 0)

/-- Models `{ ...allErrors, ...errors }`: later keys overwrite, new keys are appended. -/
def Errors.spread (allErrors errors : Errors) : Errors :=
  errors.foldl (fun acc kv =>
    if acc.any (·.1 == kv.1) then acc.map (fun old => if old.1 = kv.1 then kv else old)
    else acc ++ [kv]) allErrors

/-- Models `showFieldError(fieldName, hasError, message = '')`. -/
def showFieldError (fieldName : JSString) (hasError : Bool) (message : JSString := []) :
    JS Document Unit := do
  let field ← getElementById fieldName
  let errorElement ← getElementById (fieldName ++ lit "-error")
  let formGroup := (← readElem (← deref field)).parentElement
  if field.isNone then return
  if hasError then
    modifyElem (← deref formGroup) fun e =>
      { e with classList := classAdd (lit "error") e.classList }
    if let some errorElement := errorElement then
      if !message.isEmpty then
        modifyElem errorElement fun e => { e with textContent := message }
        modifyElem errorElement fun e =>
          { e with classList := classAdd (lit "show") e.classList }
  else
    modifyElem (← deref formGroup) fun e =>
      { e with classList := classRemove (lit "error") e.classList }
    if let some errorElement := errorElement then
      modifyElem errorElement fun e => { e with textContent := [] }
      modifyElem errorElement fun e =>
        { e with classList := classRemove (lit "show") e.classList }

/-- The variables `allErrors` and `isValid` the `forEach` callback of `validateForm`
closes over. -/
structure FormCheck where
  allErrors : Errors := []
  isValid : Bool := true
  deriving DecidableEq, Repr

/-- The callback `validateForm` runs for every key of `fields`. -/
def validateFormEach (acc : FormCheck) (entry : JSString × Value) : JS Document FormCheck := do
  let errors ← validateField entry.1 entry.2
  if errors.nonEmpty then
    showFieldError entry.1 true ((errors.lookup entry.1).getD [])
    return { allErrors := acc.allErrors.spread errors, isValid := false }
  else
    showFieldError entry.1 false
    return acc

/-- Models `document.getElementById(id).value`. -/
def valueOf (id : JSString) : JS Document JSString := do
  return (← readElem (← deref (← getElementById id))).value

/-- Models `document.getElementById(id).checked`. -/
def checkedOf (id : JSString) : JS Document Bool := do
  return (← readElem (← deref (← getElementById id))).checked

/-- Models `validateForm()`. -/
def validateForm : JS Document Bool := do
  let nombre ← valueOf (lit "nombre")
  let email ← valueOf (lit "email")
  let asunto ← valueOf (lit "asunto")
  let mensaje ← valueOf (lit "mensaje")
  let terminos ← checkedOf (lit "terminos")
  let fields : List (JSString × Value) :=
    [(lit "nombre", .str nombre), (lit "email", .str email), (lit "asunto", .str asunto),
     (lit "mensaje", .str mensaje), (lit "terminos", .bool terminos)]
  let check ← fields.foldlM validateFormEach {}
  return check.isValid

/-! ## Submission -/

/-- Tokens of a `className` string: split on ASCII whitespace, first occurrences kept. -/
def classTokens (className : JSString) : List JSString :=
  ((className.splitOnP fun c => c == 0x09 || c == 0x0A || c == 0x0C || c == 0x0D || c == 0x20).filter
    (· ≠ [])).foldl (fun acc t => classAdd t acc) []

/-- Models `showMessage(message, type)`. -/
def showMessage (message type : JSString) : JS Page Unit := do
  let formMessage ← deref (← getState).formMessage
  onDocument <| modifyElem formMessage fun e => { e with textContent := message }
  onDocument <| modifyElem formMessage fun e =>
    { e with classList := classTokens (lit "form-message " ++ type) }
  modifyState fun p => { p with timers := p.timers ++ [{ delay := 5000, type := type }] }
  modifyState fun p => { p with scrolledTo := some formMessage }

/-- The callback `showMessage` hands to `setTimeout`: a success banner loses its type. -/
def Timer.fire (timer : Timer) : JS Page Unit := do
  if timer.type = lit "success" then
    let formMessage ← deref (← getState).formMessage
    onDocument <| modifyElem formMessage fun e => { e with classList := classTokens (lit "form-message") }

/-- The object the endpoint's JSON body denotes: `{success, message}`. -/
structure ResponseData where
  success : Bool
  message : JSString
  deriving DecidableEq, Repr

/-- What the network does with the request. -/
inductive NetOutcome
  | rejected
  | invalidJson
  | json (data : ResponseData)
  deriving DecidableEq, Repr

/-- Conversion of a string to a scalar value string: a surrogate code unit that is not
half of a pair becomes U+FFFD. -/
def toScalarValueString : JSString → JSString
  | [] => []
  | [c] => if 0xD800 ≤ c ∧ c ≤ 0xDFFF then [0xFFFD] else [c]
  | c :: d :: cs =>
    if 0xD800 ≤ c ∧ c ≤ 0xDBFF ∧ 0xDC00 ≤ d ∧ d ≤ 0xDFFF then c :: d :: toScalarValueString cs
    else if 0xD800 ≤ c ∧ c ≤ 0xDFFF then 0xFFFD :: toScalarValueString (d :: cs)
    else c :: toScalarValueString (d :: cs)

/-- ASCII lower-casing of a string. -/
def asciiLowercase (s : JSString) : JSString :=
  s.map fun c => if 0x41 ≤ c ∧ c ≤ 0x5A then c + 0x20 else c

/-- The buttons: with no submitter, none of them contributes an entry. -/
def isButtonType (type : JSString) : Bool :=
  type = lit "submit" || type = lit "image" || type = lit "reset" || type = lit "button"

/-- Whether a control contributes to the entry list of `form`: it is owned by the form,
enabled and named, and is neither a button nor an unchecked checkbox or radio button. -/
def contributesEntry (form : Nat) (e : Element) : Bool :=
  e.form = some form && !e.disabled && !isButtonType e.type &&
  !((e.type = lit "checkbox" || e.type = lit "radio") && !e.checked) && !e.name.isEmpty

/-- The value a control contributes: its `value`, or the encoding name for a hidden
control named `_charset_`. -/
def entryValue (e : Element) : JSString :=
  if e.type = lit "hidden" ∧ asciiLowercase e.name = lit "_charset_" then lit "UTF-8"
  else e.value

/-- The entry list of a form, for controls that carry one string value: name and value of
every contributing control in tree order, as scalar value strings. -/
def formEntries (form : Nat) (d : Document) : List (JSString × JSString) :=
  (d.filter (contributesEntry form)).map
    fun e => (toScalarValueString e.name, toScalarValueString (entryValue e))

/-- Models `new FormData(form)`. -/
def newFormData (form : Option Nat) : JS Page (List (JSString × JSString)) := do
  return formEntries (← deref form) (← getState).elems

/-- Models `await fetch(url, { method, body })`. -/
def fetch (url method : JSString) (body : List (JSString × JSString)) (net : NetOutcome) :
    JS Page NetOutcome := do
  modifyState fun p => { p with requests := p.requests ++ [{ url, method, body }] }
  if net = .rejected then throw JSError.networkError
  return net

/-- Models `await response.json()`. -/
def NetOutcome.json! : NetOutcome → JS Page ResponseData
  | .json data => pure data
  | _ => throw JSError.syntaxError

/-- The controls whose `value` property reads the `value` attribute (a checkbox or radio
button, where it is `'on'` without the attribute, a hidden input and the buttons): nothing
the user does changes it, and neither does a reset. -/
def valueFollowsAttribute (type : JSString) : Bool :=
  type = lit "checkbox" || type = lit "radio" || type = lit "hidden" ||
  type = lit "submit" || type = lit "image" || type = lit "reset" || type = lit "button"

/-- The reset algorithm on one element, for a control owned by `form`: the checkedness
returns to the `checked` attribute; the value of a text control, a text area or a select
returns to its default, a file input loses its selection, and a control whose value reads
the attribute keeps it. -/
def resetControl (form : Nat) (e : Element) : Element :=
  if e.form = some form then
    if valueFollowsAttribute e.type then { e with checked := e.defaultChecked }
    else if e.type = lit "file" then { e with value := [], checked := e.defaultChecked }
    else { e with value := e.defaultValue, checked := e.defaultChecked }
  else e

/-- Models `form.reset()`. -/
def formReset (form : Option Nat) : JS Page Unit := do
  let form ← deref form
  onDocument <| modifyState (List.map (resetControl form))

/-- The callback `el => el.classList.remove(c)` on an element matching every class of
`selector`; other elements are not visited. -/
def removeClassIfMatches (selector : List JSString) (c : JSString) (e : Element) : Element :=
  if selector.all (· ∈ e.classList) then { e with classList := classRemove c e.classList }
  else e

/-- Models `document.querySelectorAll(selector).forEach(el => el.classList.remove(c))`. -/
def removeClassFromAll (selector : List JSString) (c : JSString) : JS Document Unit :=
  modifyState (List.map (removeClassIfMatches selector c))

/-- The `try` block of `handleFormSubmit`. -/
def sendForm (net : NetOutcome) : JS Page Unit := do
  let formData ← newFormData (← getState).contactForm
  let response ← fetch (lit "backend/handlers/form-handler.php") (lit "POST") formData net
  let data ← response.json!
  if data.success then
    showMessage data.message (lit "success")
    formReset (← getState).contactForm
    onDocument <| removeClassFromAll [lit "form-group", lit "error"] (lit "error")
    onDocument <| removeClassFromAll [lit "error-message"] (lit "show")
  else
    showMessage data.message (lit "error")

/-- The `catch` block of `handleFormSubmit`. -/
def reportFailure : JS Page Unit := do
  modifyState fun p => { p with console := p.console ++ [lit "Error:"] }
  showMessage (lit "Error al enviar el formulario. Intenta nuevamente.") (lit "error")

/-- The `finally` block of `handleFormSubmit`. -/
def restoreButton (submitBtn : Nat) : JS Page Unit := do
  onDocument <| modifyElem submitBtn fun e => { e with disabled := false }
  onDocument <| modifyElem submitBtn fun e => { e with textContent := lit "Enviar" }

/-- Models `handleFormSubmit(e)`, with the outcome of the network call as a parameter. -/
def handleFormSubmit (net : NetOutcome) : JS Page Unit := do
  modifyState fun p => { p with defaultPrevented := true }
  if !(← onDocument validateForm) then
    showMessage (lit "Por favor, completa todos los campos correctamente") (lit "error")
    return
  let submitBtn ← deref (← getState).submitBtn
  onDocument <| modifyElem submitBtn fun e => { e with disabled := true }
  onDocument <| modifyElem submitBtn fun e => { e with textContent := lit "Enviando..." }
  try
    sendForm net
  catch _ =>
    reportFailure
  finally
    restoreButton submitBtn

/-- The module-level constants, resolved against the document when the script loads. -/
def Page.load (elems : Document) : Page :=
  let i := elems.findIdx fun e => lit "submit-button" ∈ e.classList
  { elems := elems
    contactForm := findById (lit "contactForm") elems
    formMessage := findById (lit "form-message") elems
    submitBtn := if i < elems.length then some i else none }

/-! ## The rules as the specification words them -/

/-- The length-checked fields and their minimum lengths. -/
def lengthRules : List (JSString × Nat) :=
  [(lit "nombre", 3), (lit "asunto", 5), (lit "mensaje", 10)]

/-- Number of non-whitespace code units of a string. -/
def nonWhitespaceCount (s : JSString) : Nat :=
  s.countP fun c => !isWhiteSpace c

/-- The part of an address before its first `@`. -/
def localPart (s : JSString) : JSString := s.takeWhile (· != 0x40)

/-- The part of an address after its first `@`. -/
def domainPart (s : JSString) : JSString := (s.dropWhile (· != 0x40)).drop 1

/-- The shape `local@domain.tld`: no whitespace, exactly one `@`, something before it, and
after it a `.` that is neither first nor last. -/
def EmailShape (s : JSString) : Prop :=
  (∀ c ∈ s, isWhiteSpace c = false) ∧ s.count 0x40 = 1 ∧ localPart s ≠ [] ∧
  ∃ i, i < (domainPart s).length ∧
    0 < i ∧ i + 1 < (domainPart s).length ∧ (domainPart s)[i]? = some 0x2E

instance (s : JSString) : Decidable (EmailShape s) := by
  unfold EmailShape
  infer_instance

/-! ## The document structure the form code relies on -/

/-- The keys of `fields` in `validateForm`, in insertion order. -/
def formFields : List JSString :=
  [lit "nombre", lit "email", lit "asunto", lit "mensaje", lit "terminos"]

/-- The element with id `fieldName` exists and has a parent element. -/
def fieldPresent (d : Document) (fieldName : JSString) : Bool :=
  match findById fieldName d with
  | some i =>
    match d[i]? with
    | some e => e.parentElement.isSome
    | none => false
  | none => false

/-- The five form fields exist, each inside a parent element. -/
def FormPresent (d : Document) : Prop :=
  ∀ fieldName ∈ formFields, fieldPresent d fieldName = true

instance (d : Document) : Decidable (FormPresent d) := by
  unfold FormPresent
  infer_instance

/-- An element without its class list and text content. -/
def Element.core (e : Element) : Element :=
  { e with classList := [], textContent := [] }

/-- The document without class lists and text contents. -/
def frame (d : Document) : Document := d.map Element.core

/-- The `value` and `checked` of every element. -/
def fieldValues (d : Document) : List (JSString × Bool) :=
  d.map fun e => (e.value, e.checked)

/-- The script `m` leaves the observation `π` of the state as it found it, whatever its
completion. -/
def Keeps {σ α β : Type} (π : σ → β) (m : JS σ α) : Prop :=
  ∀ s, π (m s).2 = π s

/-- The messages `showMessage` is called with. -/
def invalidFormMessage : JSString := lit "Por favor, completa todos los campos correctamente"

/-- The message shown when the request or the parsing of its response fails. -/
def retryMessage : JSString := lit "Error al enviar el formulario. Intenta nuevamente."

/-! ## An example page -/

/-- A contact form as the script expects it: the form, one group per field holding the
field and (for the first two) its error placeholder, the submit button and the banner. -/
def examplePage (nombre email asunto mensaje : String) (terminos : Bool) : Page :=
  Page.load [
    { id := lit "contactForm" },
    { classList := [lit "form-group", lit "error"], parentElement := some 0 },
    { id := lit "nombre", parentElement := some 1, value := lit nombre, name := lit "nombre",
      type := lit "text", form := some 0 },
    { id := lit "nombre-error", classList := [lit "error-message", lit "show"],
      textContent := lit "El nombre debe tener al menos 3 caracteres", parentElement := some 1 },
    { classList := [lit "form-group"], parentElement := some 0 },
    { id := lit "email", parentElement := some 4, value := lit email, name := lit "email",
      type := lit "email", form := some 0 },
    { id := lit "email-error", classList := [lit "error-message"], parentElement := some 4 },
    { classList := [lit "form-group"], parentElement := some 0 },
    { id := lit "asunto", parentElement := some 7, value := lit asunto, name := lit "asunto",
      type := lit "text", form := some 0 },
    { classList := [lit "form-group"], parentElement := some 0 },
    { id := lit "mensaje", parentElement := some 9, value := lit mensaje, name := lit "mensaje",
      type := lit "textarea", form := some 0 },
    { classList := [lit "form-group"], parentElement := some 0 },
    { id := lit "terminos", parentElement := some 11, value := lit "on", checked := terminos,
      name := lit "terminos", type := lit "checkbox", form := some 0 },
    { classList := [lit "submit-button"], textContent := lit "Enviar", parentElement := some 0,
      type := lit "submit", form := some 0 },
    { id := lit "form-message", classList := [lit "form-message"] }]

/-- The banner element once `showMessage(message, type)` has written to it. -/
def Element.showing (message type : JSString) (e : Element) : Element :=
  { e with textContent := message, classList := classTokens (lit "form-message " ++ type) }

/-- The submit button once the `finally` block has run. -/
def Element.restored (e : Element) : Element :=
  { e with disabled := false, textContent := lit "Enviar" }

/-- The message a failed submission shows: the server's for a parsed response, the generic
one otherwise. -/
def failureMessage : NetOutcome → JSString
  | .json data => data.message
  | _ => retryMessage

/-- What identifies a control and what `reset` restores it to. -/
def controlDefaults (d : Document) : List (JSString × Option Nat × JSString × Bool) :=
  d.map fun e => (e.id, e.form, e.defaultValue, e.defaultChecked)

/-! ## Numbers

A JavaScript number is a double: the result of an arithmetic operation is the exact
result rounded to the nearest double, and the string of a number is the shortest decimal
that denotes it. Numbers are modelled as the rationals they are; the overflow of a result
of magnitude 2^1024 or more to `Infinity` is not modelled. -/

/-- Round to the nearest integer, a tie to the even one. -/
def roundHalfEven (q : ℚ) : Int :=
  if q - ⌊q⌋ < 1 / 2 then ⌊q⌋
  else if 1 / 2 < q - ⌊q⌋ then ⌊q⌋ + 1
  else if ⌊q⌋ % 2 = 0 then ⌊q⌋ else ⌊q⌋ + 1

/-- The binary exponent of the spacing of the doubles around `x`: 52 below the exponent of
`x`, and -1074 in the subnormal range. -/
def ulpExponent (x : ℚ) : Int := max (Int.log 2 |x| - 52) (-1074)

/-- IEEE 754 binary64 rounding of an exact result: to the nearest double, a tie to the one
with the even significand. -/
def roundToDouble (x : ℚ) : ℚ := roundHalfEven (x / 2 ^ ulpExponent x) * 2 ^ ulpExponent x

/-- The decimal digits of a natural number. -/
def decimalDigits (n : Nat) : JSString := lit (Nat.repr n)

/-- The decimal rendering of an integer: its digits, after a minus sign when it is
negative. -/
def decimalRendering (n : Int) : JSString :=
  if n < 0 then lit "-" ++ decimalDigits n.natAbs else decimalDigits n.toNat

/-- Whether the decimal value `y` denotes the double `x`: it rounds to it. -/
def roundsTo (y x : Nat) : Bool := roundToDouble (y : ℚ) = (x : ℚ)

/-- The significand of `k` digits closest to `x`, a number of `D` digits, if it denotes
`x`, together with the number of digits before the decimal point. Of two significands
that denote `x` the closer is taken, the even one if they are equally close. -/
def digitsOfLength (x D k : Nat) : Option (Nat × Nat) :=
  let p := 10 ^ (D - k)
  let lo := x / p
  let hi := lo + 1
  let s : Option Nat :=
    if roundsTo (lo * p) x then
      if roundsTo (hi * p) x then
        if x - lo * p < hi * p - x then some lo
        else if hi * p - x < x - lo * p then some hi
        else if lo % 2 = 0 then some lo else some hi
      else some lo
    else if roundsTo (hi * p) x then some hi
    else none
  s.map fun s => if s = 10 ^ k then (10 ^ (k - 1), D + 1) else (s, D)

/-- The shortest significand that denotes `x`, trying `k`, `k + 1`, ... digits; with all
`D` digits it is `x` itself. -/
def shortestDigits (x D : Nat) : Nat → Nat → Nat × Nat
  | 0, _ => (x, D)
  | fuel + 1, k =>
    match digitsOfLength x D k with
    | some r => r
    | none => shortestDigits x D fuel (k + 1)

/-- The string of the significand `s` with `n` digits before the decimal point, `n` being
at least the number of digits of `s`: the digits padded with zeros up to 21 digits, the
exponent form beyond. -/
def formatDigits (s n : Nat) : JSString :=
  let digits := decimalDigits s
  if n ≤ 21 then digits ++ List.replicate (n - digits.length) 0x30
  else
    digits.take 1 ++ (if digits.length = 1 then [] else lit "." ++ digits.drop 1) ++
      lit "e+" ++ decimalDigits (n - 1)

/-- Models `Number::toString` on a non-negative integer-valued number, as `n + 'px'`
applies it. Below 2^53 every integer is a double, and the shortest digits that denote it,
padded with zeros, are its decimal digits; from 2^53 on the shortest digits are searched
for. -/
def numberToString (x : Nat) : JSString :=
  if x < 9007199254740992 then decimalDigits x
  else
    let D := (decimalDigits x).length
    let r := shortestDigits x D (D - 1) 1
    formatDigits r.1 r.2

/-- Models `Number::toString` on an integer-valued number. -/
def integerToString (n : Int) : JSString :=
  if n < 0 then lit "-" ++ numberToString n.natAbs else numberToString n.toNat

/-! ## Looping logo strips -/

/-- A carousel track: its child nodes, the items of the strip (what `innerHTML` serialises
and what assigning to it replaces), `dataset.inited`, the custom properties set on its
`style`, and the resize handler stored on the element. -/
structure Track where
  items : List JSString := []
  inited : Option JSString := none
  style : List (JSString × JSString) := []
  resizeHandler : Option Nat := none
  deriving DecidableEq, Repr

/-- The part of the page the two strips live in. A listener is identified by the number of
the closure that was registered; `nextClosure` numbers the next closure created. -/
structure StripPage where
  clientsTrack : Option Track := none
  providersTrack : Option Track := none
  resizeListeners : List Nat := []
  nextClosure : Nat := 0
  deriving DecidableEq, Repr

/-- Models `style.setProperty(name, value)`. -/
def setProperty (name value : JSString) (style : List (JSString × JSString)) :
    List (JSString × JSString) :=
  if style.any (·.1 == name) then style.map fun kv => if kv.1 = name then (name, value) else kv
  else style ++ [(name, value)]

/-- Models `!track.dataset.inited`: the attribute is absent or empty. -/
def Track.notInited (track : Track) : Bool :=
  match track.inited with
  | none => true
  | some s => s.isEmpty

/-- The browser's HTML fragment serialiser and parser, through which `innerHTML` is read
and written: `serialize` gives the markup of a sequence of child nodes, `parse` the child
nodes a markup string denotes. -/
structure Markup where
  serialize : List JSString → JSString
  parse : JSString → List JSString

/-- Models reading `track.innerHTML`. -/
def Track.innerHTML (m : Markup) (track : Track) : JSString := m.serialize track.items

/-- Models `track.innerHTML = html`: the children are replaced by what the markup parses
to. -/
def Track.setInnerHTML (m : Markup) (html : JSString) (track : Track) : Track :=
  { track with items := m.parse html }

/-- The guarded duplication: `track.innerHTML = track.innerHTML + track.innerHTML`, then
`track.dataset.inited = '1'`. -/
def Track.duplicate (m : Markup) (track : Track) : Track :=
  if track.notInited then
    { track.setInnerHTML m (track.innerHTML m ++ track.innerHTML m) with
      inited := some (lit "1") }
  else track

/-- The pieces of a string that end with `close`, and what is left after the last one. -/
def chunksEndingWith (close : JSString) : JSString → JSString → List JSString
  | acc, [] => if acc.isEmpty then [] else [acc]
  | acc, c :: cs =>
    if close.isSuffixOf (acc ++ [c]) then (acc ++ [c]) :: chunksEndingWith close [] cs
    else chunksEndingWith close (acc ++ [c]) cs

/-- A serialiser and parser for a strip of `<div>` items without nested `<div>`s: the
markup of a sequence is the concatenation of its items, and every `</div>` ends an item. -/
def Markup.flatDivs : Markup :=
  { serialize := List.flatten, parse := chunksEndingWith (lit "</div>") [] }

/-- Models `Math.round`: the nearest integer, a half upwards. -/
def mathRound (x : ℚ) : Int := ⌊x + 1 / 2⌋

/-- The two custom properties computed from `scrollWidth`: the distance is
`Math.floor(scrollWidth / 2) || 0` pixels, the duration
`Math.max(least, Math.round(distance / speed))` seconds. -/
def Track.measure (distanceName durationName : JSString) (least speed : Nat)
    (scrollWidth : List JSString → Nat) (track : Track) : Track :=
  let originalWidth := scrollWidth track.items / 2
  let quotient := roundToDouble ((originalWidth : ℚ) / (speed : ℚ))
  let duration := max least (mathRound quotient).toNat
  let style := setProperty distanceName (numberToString originalWidth ++ lit "px") track.style
  let style := setProperty durationName (numberToString duration ++ lit "s") style
  { track with style := style }

/-- Replace the stored resize handler by a new closure and register it on `window`. -/
def registerResize (track : Track) (w : StripPage) : Track × StripPage :=
  let listeners :=
    match track.resizeHandler with
    | some h => w.resizeListeners.erase h
    | none => w.resizeListeners
  ({ track with resizeHandler := some w.nextClosure },
   { w with resizeListeners := listeners ++ [w.nextClosure], nextClosure := w.nextClosure + 1 })

/-- Models `initClientsCarousel()`; `m` is the browser's markup serialiser and parser and
`scrollWidth` what layout reports for a given content. -/
def initClientsCarousel (m : Markup) (scrollWidth : List JSString → Nat) (w : StripPage) :
    StripPage :=
  match w.clientsTrack with
  | none => w
  | some track =>
    let track := track.duplicate m
    let track :=
      track.measure (lit "--scroll-distance") (lit "--scroll-duration") 5 200 scrollWidth
    let (track, w) := registerResize track w
    { w with clientsTrack := some track }

/-- Models `initProvidersCarousel()`. -/
def initProvidersCarousel (m : Markup) (scrollWidth : List JSString → Nat) (w : StripPage) :
    StripPage :=
  match w.providersTrack with
  | none => w
  | some track =>
    let track := track.duplicate m
    let track :=
      track.measure (lit "--providers-distance") (lit "--providers-duration") 10 150 scrollWidth
    let (track, w) := registerResize track w
    { w with providersTrack := some track }

/-- The debounced callback of the clients resize handler: measure again, duplicate
nothing. -/
def clientsResized (scrollWidth : List JSString → Nat) (w : StripPage) : StripPage :=
  let measure := Track.measure (lit "--scroll-distance") (lit "--scroll-duration") 5 200
  { w with clientsTrack := w.clientsTrack.map (measure scrollWidth) }

/-- The debounced callback of the providers resize handler. -/
def providersResized (scrollWidth : List JSString → Nat) (w : StripPage) : StripPage :=
  let measure := Track.measure (lit "--providers-distance") (lit "--providers-duration") 10 150
  { w with providersTrack := w.providersTrack.map (measure scrollWidth) }

/-- The items of a track, if the page has it. -/
def trackItems (track : Option Track) : Option (List JSString) := track.map Track.items

/-! ## Video slides -/

/-- The document side of the video carousel: the class list of every `.video-slide` and
whether the two buttons exist. -/
structure VideoDocument where
  slides : List (List JSString) := []
  prevBtn : Bool := false
  nextBtn : Bool := false
  deriving DecidableEq, Repr

/-- The carousel once initialised: the slides and the closure variable `currentIndex`. -/
structure VideoCarousel where
  slides : List (List JSString)
  currentIndex : Int
  deriving DecidableEq, Repr

/-- Models `showSlide(index)`: every slide loses `active`, then `slides[index]` gains it;
`slides[index]` is `undefined` outside the list and reading its `classList` throws. -/
def showSlide (slides : List (List JSString)) (index : Int) :
    Except JSError (List (List JSString)) :=
  let cleared := slides.map (classRemove (lit "active"))
  if 0 ≤ index ∧ index < cleared.length then
    .ok (cleared.modify (classAdd (lit "active")) index.toNat)
  else .error JSError.typeError

/-- Models `nextSlide()`. -/
def nextSlide (c : VideoCarousel) : Except JSError VideoCarousel := do
  let currentIndex := (c.currentIndex + 1).tmod c.slides.length
  let slides ← showSlide c.slides currentIndex
  return { slides, currentIndex }

/-- Models `prevSlide()`. -/
def prevSlide (c : VideoCarousel) : Except JSError VideoCarousel := do
  let currentIndex := (c.currentIndex - 1 + c.slides.length).tmod c.slides.length
  let slides ← showSlide c.slides currentIndex
  return { slides, currentIndex }

/-- Models `initVideoCarousel()`: `none` when it returns before creating the carousel. -/
def initVideoCarousel (doc : VideoDocument) : Except JSError (Option VideoCarousel) := do
  if doc.slides.isEmpty || !doc.prevBtn || !doc.nextBtn then return none
  let currentIndex := 0
  let slides ← showSlide doc.slides 0
  return some { slides, currentIndex }

/-! ## Statistics counter -/

/-- The string of what `parseInt` or `Math.floor` returned: `none` is `NaN`. -/
def renderNumber : Option Int → JSString
  | some n => integerToString n
  | none => lit "NaN"

/-- A `.stat-number` element: the value `parseInt` gives for its `data-target` (an
integer-valued number, `none` for `NaN`), its `data-suffix`, whether it carries
`data-animated`, its text, and how many times `requestAnimationFrame` has been called for
it. -/
structure StatNumber where
  dataTarget : Option Int := none
  dataSuffix : Option JSString := none
  animated : Bool := false
  textContent : JSString := []
  framesRequested : Nat := 0
  deriving DecidableEq, Repr

/-- The value of `progress` at `elapsed = now - start` milliseconds:
`Math.min(elapsed / duration, 1)` with `duration = 2000`. -/
def progress (elapsed : Int) : ℚ :=
  min (roundToDouble ((elapsed : ℚ) / 2000)) 1

/-- The value of `current`: `Math.floor(progress * target)`. -/
def currentValue (elapsed target : Int) : Int :=
  ⌊roundToDouble (progress elapsed * (target : ℚ))⌋

/-- The closure `animate`, run when `Date.now()` is `now`; it captures `target`, `suffix`
and `start`. -/
def animate (target : Option Int) (suffix : JSString) (start now : Int)
    (el : StatNumber) : StatNumber :=
  let current := target.map (currentValue (now - start))
  let el := { el with textContent := renderNumber current ++ suffix }
  if progress (now - start) < 1 then
    { el with framesRequested := el.framesRequested + 1 }
  else
    { el with textContent := renderNumber target ++ suffix }

/-- The observer callback of `animateCountUp` for one entry: `start` and `now` are the two
readings of `Date.now()`, when the animation is set up and when `animate` first runs. -/
def onCounterVisible (isIntersecting : Bool) (start now : Int)
    (el : StatNumber) : StatNumber :=
  if isIntersecting && !el.animated then
    let el := { el with animated := true }
    let suffix := match el.dataSuffix with
      | some s => s
      | none => []
    animate el.dataTarget suffix start now el
  else el

/-! ## Tab panels -/

/-- An element of a detail panel. -/
structure PanelElement where
  textContent : JSString := []
  classList : List JSString := []
  style : List (JSString × JSString) := []
  src : JSString := []
  alt : JSString := []
  deriving DecidableEq, Repr

/-- The elements a detail function looks up (each may be missing) and how many times the
panel has been scrolled into view. -/
structure DetailPanel where
  detail : Option PanelElement := none
  img : Option PanelElement := none
  imgTag : Option PanelElement := none
  title : Option PanelElement := none
  desc : Option PanelElement := none
  inner : Option PanelElement := none
  scrolls : Nat := 0
  deriving DecidableEq, Repr

/-- The elements of a detail panel by name. -/
inductive Part
  | detail
  | img
  | imgTag
  | title
  | desc
  | inner
  deriving DecidableEq, Repr

/-- The element bound to a name. -/
def DetailPanel.get (p : DetailPanel) : Part → Option PanelElement
  | .detail => p.detail
  | .img => p.img
  | .imgTag => p.imgTag
  | .title => p.title
  | .desc => p.desc
  | .inner => p.inner

/-- Replace the element bound to a name. -/
def DetailPanel.set (p : DetailPanel) (e : PanelElement) : Part → DetailPanel
  | .detail => { p with detail := some e }
  | .img => { p with img := some e }
  | .imgTag => { p with imgTag := some e }
  | .title => { p with title := some e }
  | .desc => { p with desc := some e }
  | .inner => { p with inner := some e }

/-- Assign to properties of a panel element; on a missing element this is a `TypeError`. -/
def updatePart (part : Part) (f : PanelElement → PanelElement) : JS DetailPanel Unit :=
  fun p =>
    match p.get part with
    | some e => (.ok (), p.set (f e) part)
    | none => (.error JSError.typeError, p)

/-- An entry of `projects` or `equipments`, or an inherited property read as one: a
property is `none` when reading it gives `undefined`. -/
structure DetailEntry where
  title : Option JSString
  desc : Option JSString
  image : Option JSString
  deriving DecidableEq, Repr

/-- The properties every object literal inherits from `Object.prototype`; each is a
function or an object, hence truthy, and has no `title`, `desc` or `image`. -/
def objectPrototypeKeys : List JSString :=
  [lit "constructor", lit "__defineGetter__", lit "__defineSetter__", lit "hasOwnProperty",
   lit "__lookupGetter__", lit "__lookupSetter__", lit "isPrototypeOf",
   lit "propertyIsEnumerable", lit "toString", lit "valueOf", lit "__proto__",
   lit "toLocaleString"]

/-- Models `table[key]` as the guards test it: the own entry, else the inherited property,
else `undefined` (`none`). -/
def lookupEntry (table : List (JSString × DetailEntry)) (key : JSString) : Option DetailEntry :=
  match table.lookup key with
  | some entry => some entry
  | none => if key ∈ objectPrototypeKeys then some ⟨none, none, none⟩ else none

/-- The string a template literal or a string-valued attribute makes of a value. -/
def toStringValue : Option JSString → JSString
  | some s => s
  | none => lit "undefined"

/-- The text the `textContent` setter stores: `undefined` and `null` store the empty
string. -/
def toTextContent : Option JSString → JSString
  | some s => s
  | none => []

/-- The table `projects`. -/
def projects : List (JSString × DetailEntry) :=
  [(lit "planos",
      ⟨some (lit "Planos Técnicos Detallados"),
       some (lit "Realizamos planos técnicos detallados para requerimientos de precisión y cumplimiento de normas. Entregamos documentación lista para fabricación y validación."),
       some (lit "assets/images/plano.jpeg")⟩),
   (lit "proceso",
      ⟨some (lit "Montaje y Cableado"),
       some (lit "Montaje, cableado y verificación de cada tablero eléctrico con controles de calidad estrictos y pruebas funcionales."),
       some (lit "assets/images/fabricacion.jpeg")⟩),
   (lit "resultado",
      ⟨some (lit "Entrega y Puesta en Marcha"),
       some (lit "Entrega final de tableros listos para operación, con pruebas realizadas y documentación técnica completa."),
       some (lit "assets/images/carru9.jpg")⟩)]

/-- The table `equipments`. -/
def equipments : List (JSString × DetailEntry) :=
  [(lit "domestico",
      ⟨some (lit "Autoportante"),
       some (lit "Los tableros autoportantes son estructuras de libre apoyo diseñadas para soportar componentes de gran peso sin necesidad de anclaje a muros. Destacan por su diseño modular y robusto, ideal para centros de control y distribución de alta potencia en entornos industriales."),
       some (lit "assets/images/autoportante.jpeg")⟩),
   (lit "adosado",
      ⟨some (lit "Adosado"),
       some (lit "Los productos de HLN cumplen con las normas vigentes. Están diseñados para facilitar inspecciones, pruebas y mantenimiento, e incluyen una placa base para el montaje del sistema de barras de interruptores."),
       some (lit "assets/images/ados.jpeg")⟩),
   (lit "autosoportado",
      ⟨some (lit "Autosoportado"),
       some (lit "Ofrecemos tableros autosoportados diseñados para instalaciones industriales y comerciales de alta demanda. Montados sobre una base sólida que brinda estabilidad, están fabricados en planchas galvanizadas y cuentan con puertas con cerraduras, ventilación adecuada y perforaciones pre troqueladas para el ingreso y salida de cables."),
       some (lit "assets/images/auto.jpeg")⟩),
   (lit "empotrables",
      ⟨some (lit "Empotrables"),
       some (lit "Ofrecemos tableros empotrables para llaves termomagnéticas, ideales para centralizar líneas de distribución y circuitos en instalaciones residenciales, industriales y pequeñas comerciales de baja carga. Fabricados en planchas galvanizadas, incluyen perforaciones pre troqueladas de cables y se fijan a la pared."),
       some (lit "assets/images/empo.jpeg")⟩),
   (lit "transformadores",
      ⟨some (lit "Transformadores"),
       some (lit "Ofrecemos transformadores eléctricos para aplicaciones industriales y comerciales, diseñados para garantizar una distribución eficiente y segura de la energía. Fabricados bajo estándares de calidad, incluyen protección térmica, aislamiento reforzado y configuraciones personalizadas según la necesidad del proyecto."),
       some (lit "assets/images/trafo.jpeg")⟩)]

/-- Models `el.style[name] = value`. -/
def PanelElement.setStyle (name value : JSString) (e : PanelElement) : PanelElement :=
  { e with style := setProperty name value e.style }

/-- Models `el.classList.add(c)`. -/
def PanelElement.addClass (c : JSString) (e : PanelElement) : PanelElement :=
  { e with classList := classAdd c e.classList }

/-- Models `el.classList.remove(c)`. -/
def PanelElement.removeClass (c : JSString) (e : PanelElement) : PanelElement :=
  { e with classList := classRemove c e.classList }

/-- The part of both detail functions right after the guard: content, background and
image. -/
def setDetailContent (entry : DetailEntry) : JS DetailPanel Unit := do
  updatePart .title fun e => { e with textContent := toTextContent entry.title }
  updatePart .desc fun e => { e with textContent := toTextContent entry.desc }
  let url := lit "url('" ++ toStringValue entry.image ++ lit "')"
  updatePart .img (PanelElement.setStyle (lit "background-image") url)
  updatePart .img (PanelElement.setStyle (lit "background-size") (lit "cover"))
  updatePart .img (PanelElement.setStyle (lit "background-position") (lit "center"))
  if (← getState).imgTag.isSome then
    updatePart .imgTag fun e => { e with src := toStringValue entry.image }
    updatePart .imgTag fun e => { e with alt := toStringValue entry.title }

/-- The removal of the animation classes that precedes the forced reflow. -/
def prepareAnimations : JS DetailPanel Unit := do
  updatePart .img (PanelElement.removeClass (lit "animate-left"))
  updatePart .img (PanelElement.removeClass (lit "animate-right"))
  updatePart .title (PanelElement.removeClass (lit "animate-wow"))
  updatePart .desc (PanelElement.removeClass (lit "animate-wow"))

/-- The end of both detail functions: animate title and description, show the container and
scroll it into view. -/
def revealDetail : JS DetailPanel Unit := do
  updatePart .title (PanelElement.addClass (lit "animate-wow"))
  updatePart .desc (PanelElement.addClass (lit "animate-wow"))
  updatePart .detail (PanelElement.setStyle (lit "display") (lit "block"))
  modifyState fun p => { p with scrolls := p.scrolls + 1 }

/-- Models `showProjectDetail(key)`. -/
def showProjectDetail (key : JSString) : JS DetailPanel Unit := do
  let some entry := lookupEntry projects key | return
  setDetailContent entry
  if key = lit "proceso" then
    updatePart .inner (PanelElement.addClass (lit "reverse"))
  else
    updatePart .inner (PanelElement.removeClass (lit "reverse"))
  prepareAnimations
  if key = lit "proceso" then
    updatePart .img (PanelElement.addClass (lit "animate-right"))
  else
    updatePart .img (PanelElement.addClass (lit "animate-left"))
  revealDetail

/-- Models `showEquipmentDetail(key)`. -/
def showEquipmentDetail (key : JSString) : JS DetailPanel Unit := do
  let some entry := lookupEntry equipments key | return
  setDetailContent entry
  prepareAnimations
  updatePart .img (PanelElement.addClass (lit "animate-left"))
  revealDetail

/-- A detail panel with all its elements, hidden and empty as in the markup. -/
def examplePanel : DetailPanel :=
  { detail := some { style := [(lit "display", lit "none")] }
    img := some {}
    imgTag := some {}
    title := some { textContent := lit "Planos Técnicos Detallados" }
    desc := some {}
    inner := some { classList := [lit "detail-inner"] } }

/-! ## Clicks on the video controls -/

/-- A click on one of the two buttons. -/
inductive SlideClick
  | next
  | prev
  deriving DecidableEq, Repr

/-- The listener a click runs. -/
def SlideClick.run : SlideClick → VideoCarousel → Except JSError VideoCarousel
  | .next => nextSlide
  | .prev => prevSlide

/-- A sequence of clicks, in order. -/
def runClicks (clicks : List SlideClick) (c : VideoCarousel) : Except JSError VideoCarousel :=
  clicks.foldlM (fun c click => click.run c) c

/-- Number of slides carrying `active`. -/
def activeCount (slides : List (List JSString)) : Nat :=
  slides.countP fun cl => decide (lit "active" ∈ cl)

/-- The current index is an index of the sequence, the slide there carries `active`, no
other slide does, and so exactly one slide does. -/
def VideoCarousel.Shown (c : VideoCarousel) : Prop :=
  0 ≤ c.currentIndex ∧ c.currentIndex < c.slides.length ∧
  (∀ (j : Nat) (cl : List JSString), c.slides[j]? = some cl →
    (lit "active" ∈ cl ↔ (j : Int) = c.currentIndex)) ∧
  activeCount c.slides = 1

/-! ## Lemmas on strings and matching -/

theorem length_dropWhile_le (p : Nat → Bool) (s : JSString) :
    (s.dropWhile p).length ≤ s.length := by
  induction s with
  | nil => simp
  | cons c cs ih =>
    simp only [List.dropWhile_cons]
    split
    · exact Nat.le_succ_of_le ih
    · exact Nat.le_refl _

theorem length_trim_le (s : JSString) : (trim s).length ≤ s.length := by
  unfold trim
  rw [List.length_reverse]
  exact Nat.le_trans (length_dropWhile_le _ _)
    (by rw [List.length_reverse]; exact length_dropWhile_le _ _)

theorem countP_dropWhile_not (p : Nat → Bool) (s : JSString) :
    (s.dropWhile p).countP (fun c => !p c) = s.countP (fun c => !p c) := by
  induction s with
  | nil => simp
  | cons c cs ih =>
    simp only [List.dropWhile_cons]
    split
    · rename_i h
      rw [ih, List.countP_cons_of_neg]
      simp [h]
    · rfl

theorem nonWhitespaceCount_le_length_trim (s : JSString) :
    nonWhitespaceCount s ≤ (trim s).length := by
  have h : (trim s).countP (fun c => !isWhiteSpace c) = nonWhitespaceCount s := by
    unfold trim nonWhitespaceCount
    rw [List.countP_reverse, countP_dropWhile_not, List.countP_reverse, countP_dropWhile_not]
  rw [← h]
  exact List.countP_le_length _

theorem mem_one {p : Nat → Bool} {s r : JSString} :
    r ∈ Matcher.one p s ↔ ∃ c, p c = true ∧ s = c :: r := by
  cases s with
  | nil => simp [Matcher.one]
  | cons c cs =>
    by_cases h : p c = true
    · simp only [Matcher.one, h, if_true, List.mem_singleton, List.cons.injEq]
      constructor
      · rintro rfl; exact ⟨c, h, rfl, rfl⟩
      · rintro ⟨d, _, rfl, rfl⟩; rfl
    · simp only [Matcher.one, h, List.cons.injEq]
      constructor
      · intro h'; simp at h'
      · rintro ⟨d, hd, rfl, rfl⟩; exact absurd hd h

theorem mem_plus {p : Nat → Bool} {s r : JSString} :
    r ∈ Matcher.plus p s ↔ ∃ pre, pre ≠ [] ∧ (∀ c ∈ pre, p c = true) ∧ s = pre ++ r := by
  induction s with
  | nil =>
    simp only [Matcher.plus, List.not_mem_nil, false_iff]
    rintro ⟨pre, hne, _, h⟩
    cases pre with
    | nil => exact hne rfl
    | cons _ _ => simp at h
  | cons c cs ih =>
    by_cases h : p c = true
    · simp only [Matcher.plus, h, if_true, List.mem_cons]
      constructor
      · rintro (rfl | hr)
        · exact ⟨[c], by simp, by simpa using h, rfl⟩
        · obtain ⟨pre, _, hall, rfl⟩ := ih.mp hr
          refine ⟨c :: pre, by simp, ?_, rfl⟩
          intro d hd
          rcases List.mem_cons.mp hd with rfl | hd
          · exact h
          · exact hall d hd
      · rintro ⟨pre, hne, hall, heq⟩
        cases pre with
        | nil => exact absurd rfl hne
        | cons d ds =>
          simp only [List.cons_append, List.cons.injEq] at heq
          obtain ⟨rfl, rfl⟩ := heq
          cases ds with
          | nil => left; rfl
          | cons e es =>
            right
            exact ih.mpr ⟨e :: es, by simp, fun x hx => hall x (List.mem_cons_of_mem _ hx), rfl⟩
    · simp only [Matcher.plus, h]
      constructor
      · intro h'; simp at h'
      · rintro ⟨pre, hne, hall, heq⟩
        cases pre with
        | nil => exact absurd rfl hne
        | cons d ds =>
          simp only [List.cons_append, List.cons.injEq] at heq
          obtain ⟨rfl, -⟩ := heq
          exact absurd (hall _ (List.mem_cons_self _ _)) h

theorem mem_seq {m₁ m₂ : Matcher} {s r : JSString} :
    r ∈ Matcher.seq m₁ m₂ s ↔ ∃ t, t ∈ m₁ s ∧ r ∈ m₂ t := by
  simp [Matcher.seq, List.mem_flatMap]

theorem test_iff {m : Matcher} {s : JSString} : m.test s = true ↔ [] ∈ m s := by
  simp only [Matcher.test, List.any_eq_true, List.isEmpty_iff]
  constructor
  · rintro ⟨x, hx, rfl⟩; exact hx
  · intro h; exact ⟨[], h, rfl⟩

/-- What the pattern accepts: three non-empty runs of `[^\s@]` around an `@` and a `.`. -/
theorem emailRegex_test_iff (s : JSString) :
    emailRegex.test s = true ↔
      ∃ a b c : JSString, a ≠ [] ∧ b ≠ [] ∧ c ≠ [] ∧
        (∀ x ∈ a, notSpaceAt x = true) ∧ (∀ x ∈ b, notSpaceAt x = true) ∧
        (∀ x ∈ c, notSpaceAt x = true) ∧ s = a ++ 0x40 :: (b ++ 0x2E :: c) := by
  rw [test_iff]
  unfold emailRegex
  simp only [mem_seq, mem_plus, mem_one, beq_iff_eq]
  constructor
  · rintro ⟨t₁, ⟨a, ha, haa, rfl⟩, t₂, ⟨_, rfl, rfl⟩, t₃, ⟨b, hb, hbb, rfl⟩, t₄, ⟨_, rfl, rfl⟩,
      c, hc, hcc, rfl⟩
    exact ⟨a, b, c, ha, hb, hc, haa, hbb, by simpa using hcc, by simp⟩
  · rintro ⟨a, b, c, ha, hb, hc, haa, hbb, hcc, rfl⟩
    exact ⟨_, ⟨a, ha, haa, rfl⟩, _, ⟨_, rfl, rfl⟩, _, ⟨b, hb, hbb, rfl⟩, _, ⟨_, rfl, rfl⟩,
      c, hc, by simpa using hcc, by simp⟩

theorem notSpaceAt_iff (c : Nat) : notSpaceAt c = true ↔ isWhiteSpace c = false ∧ c ≠ 0x40 := by
  simp [notSpaceAt]

theorem takeWhile_append_stop (p : Nat → Bool) (a r : JSString) (x : Nat)
    (ha : ∀ c ∈ a, p c = true) (hx : p x = false) :
    (a ++ x :: r).takeWhile p = a := by
  induction a with
  | nil => simp [List.takeWhile_cons, hx]
  | cons c cs ih =>
    simp only [List.cons_append, List.takeWhile_cons, ha c (List.mem_cons_self _ _), if_true,
      List.cons.injEq, true_and]
    exact ih fun d hd => ha d (List.mem_cons_of_mem _ hd)

theorem dropWhile_append_stop (p : Nat → Bool) (a r : JSString) (x : Nat)
    (ha : ∀ c ∈ a, p c = true) (hx : p x = false) :
    (a ++ x :: r).dropWhile p = x :: r := by
  induction a with
  | nil => simp [List.dropWhile_cons, hx]
  | cons c cs ih =>
    simp only [List.cons_append, List.dropWhile_cons, ha c (List.mem_cons_self _ _), if_true]
    exact ih fun d hd => ha d (List.mem_cons_of_mem _ hd)

theorem dropWhile_ne_of_mem (s : JSString) (x : Nat) (h : x ∈ s) :
    ∃ r, s.dropWhile (· != x) = x :: r := by
  induction s with
  | nil => simp at h
  | cons c cs ih =>
    by_cases hc : c = x
    · subst hc; exact ⟨cs, by simp [List.dropWhile_cons]⟩
    · rcases List.mem_cons.mp h with rfl | h'
      · exact absurd rfl hc
      · obtain ⟨r, hr⟩ := ih h'
        exact ⟨r, by simp [List.dropWhile_cons, hc, hr]⟩

theorem emailShape_of_parts (a b c : JSString) (ha : a ≠ []) (hb : b ≠ []) (hc : c ≠ [])
    (haa : ∀ x ∈ a, notSpaceAt x = true) (hbb : ∀ x ∈ b, notSpaceAt x = true)
    (hcc : ∀ x ∈ c, notSpaceAt x = true) :
    EmailShape (a ++ 0x40 :: (b ++ 0x2E :: c)) := by
  have hpa : ∀ x ∈ a, (fun y : Nat => y != 0x40) x = true := fun x hx => by
    simpa using ((notSpaceAt_iff x).mp (haa x hx)).2
  have hl : localPart (a ++ 0x40 :: (b ++ 0x2E :: c)) = a :=
    takeWhile_append_stop _ a _ 0x40 hpa (by simp)
  have hd : domainPart (a ++ 0x40 :: (b ++ 0x2E :: c)) = b ++ 0x2E :: c := by
    unfold domainPart
    rw [dropWhile_append_stop _ a _ 0x40 hpa (by simp)]
    rfl
  have hcount : ∀ l : JSString, (∀ x ∈ l, notSpaceAt x = true) → l.count 0x40 = 0 := by
    intro l hl
    rw [List.count_eq_zero]
    intro hm
    exact ((notSpaceAt_iff _).mp (hl _ hm)).2 rfl
  refine ⟨?_, ?_, ?_, ?_⟩
  · intro x hx
    simp only [List.mem_append, List.mem_cons] at hx
    rcases hx with hx | rfl | hx | rfl | hx
    · exact ((notSpaceAt_iff x).mp (haa x hx)).1
    · decide
    · exact ((notSpaceAt_iff x).mp (hbb x hx)).1
    · decide
    · exact ((notSpaceAt_iff x).mp (hcc x hx)).1
  · simp [List.count_append, List.count_cons, hcount a haa, hcount b hbb, hcount c hcc]
  · rw [hl]; exact ha
  · rw [hd]
    have hlen : b.length + 1 < (b ++ 0x2E :: c).length := by
      have := List.length_pos.mpr hc
      simp only [List.length_append, List.length_cons]
      omega
    refine ⟨b.length, by omega, List.length_pos.mpr hb, hlen, ?_⟩
    · rw [List.getElem?_append_right (Nat.le_refl _)]
      simp

theorem parts_of_emailShape (s : JSString) (h : EmailShape s) :
    ∃ a b c : JSString, a ≠ [] ∧ b ≠ [] ∧ c ≠ [] ∧
      (∀ x ∈ a, notSpaceAt x = true) ∧ (∀ x ∈ b, notSpaceAt x = true) ∧
      (∀ x ∈ c, notSpaceAt x = true) ∧ s = a ++ 0x40 :: (b ++ 0x2E :: c) := by
  obtain ⟨hws, hcnt, hloc, i, -, hi0, hi1, hdot⟩ := h
  have hmem : 0x40 ∈ s := List.count_pos_iff.mp (by omega)
  obtain ⟨r, hr⟩ := dropWhile_ne_of_mem s 0x40 hmem
  have hs : s = localPart s ++ 0x40 :: r := by
    conv_lhs => rw [← List.takeWhile_append_dropWhile (· != 0x40) s]
    rw [hr]; rfl
  have hdom : domainPart s = r := by unfold domainPart; rw [hr]; rfl
  rw [hdom] at hi1 hdot
  have hloc_at : ∀ x ∈ localPart s, x ≠ 0x40 := by
    intro x hx
    have := List.mem_takeWhile_imp hx
    simpa using this
  have hr_at : ∀ x ∈ r, x ≠ 0x40 := by
    have h1 : (localPart s).count 0x40 = 0 := by
      rw [List.count_eq_zero]; intro hm; exact hloc_at _ hm rfl
    have h2 : s.count 0x40 = (localPart s).count 0x40 + (1 + r.count 0x40) := by
      conv_lhs => rw [hs]
      simp [List.count_append, List.count_cons, Nat.add_comm]
    have h3 : r.count 0x40 = 0 := by omega
    intro x hx hx'
    subst hx'
    exact (List.count_eq_zero.mp h3) hx
  have hws_l : ∀ x ∈ localPart s, isWhiteSpace x = false := fun x hx =>
    hws x (by rw [hs]; exact List.mem_append_left _ hx)
  have hws_r : ∀ x ∈ r, isWhiteSpace x = false := fun x hx =>
    hws x (by rw [hs]; exact List.mem_append_right _ (List.mem_cons_of_mem _ hx))
  have hilt : i < r.length := by omega
  have hsplit : r = r.take i ++ 0x2E :: r.drop (i + 1) := by
    have hget : r[i] = 0x2E := by
      have := List.getElem?_eq_getElem hilt
      rw [this] at hdot
      exact Option.some.inj hdot
    conv_lhs => rw [← List.take_append_drop i r]
    rw [List.drop_eq_getElem_cons hilt, hget]
  refine ⟨localPart s, r.take i, r.drop (i + 1), hloc, ?_, ?_, ?_, ?_, ?_, ?_⟩
  · intro h0
    have : (r.take i).length = 0 := by rw [h0]; rfl
    rw [List.length_take] at this
    omega
  · intro h0
    have : (r.drop (i + 1)).length = 0 := by rw [h0]; rfl
    rw [List.length_drop] at this
    omega
  · intro x hx
    exact (notSpaceAt_iff x).mpr ⟨hws_l x hx, hloc_at x hx⟩
  · intro x hx
    have hx' := List.mem_of_mem_take hx
    exact (notSpaceAt_iff x).mpr ⟨hws_r x hx', hr_at x hx'⟩
  · intro x hx
    have hx' := List.mem_of_mem_drop hx
    exact (notSpaceAt_iff x).mpr ⟨hws_r x hx', hr_at x hx'⟩
  · rw [← hsplit]; exact hs

theorem emailRegex_test_iff_shape (s : JSString) : emailRegex.test s = true ↔ EmailShape s := by
  rw [emailRegex_test_iff]
  constructor
  · rintro ⟨a, b, c, ha, hb, hc, haa, hbb, hcc, rfl⟩
    exact emailShape_of_parts a b c ha hb hc haa hbb hcc
  · exact parts_of_emailShape s

/-! ## What `validateField` computes on strings -/

theorem tooShort_str (s : JSString) (min : Nat) (hmin : 0 < min) (p : Document) :
    tooShort (.str s) min p = (.ok (decide ((trim s).length < min)), p) := by
  by_cases h : s = []
  · subst h
    simp [tooShort, Value.truthy, pure, trim, hmin]
  · simp [tooShort, Value.truthy, Value.trim, bind, pure, h]

theorem validateField_nombre (s : JSString) (p : Document) :
    validateField (lit "nombre") (.str s) p =
      (.ok (if (trim s).length < 3 then
        [(lit "nombre", lit "El nombre debe tener al menos 3 caracteres")] else []), p) := by
  simp only [validateField, if_true, bind, tooShort_str s 3 (by decide) p]
  by_cases h : (trim s).length < 3 <;> simp [h, pure]

theorem validateField_asunto (s : JSString) (p : Document) :
    validateField (lit "asunto") (.str s) p =
      (.ok (if (trim s).length < 5 then
        [(lit "asunto", lit "El asunto debe tener al menos 5 caracteres")] else []), p) := by
  have h₁ : lit "asunto" ≠ lit "nombre" := by decide
  have h₂ : lit "asunto" ≠ lit "email" := by decide
  simp only [validateField, h₁, h₂, if_false, if_true, bind, tooShort_str s 5 (by decide) p]
  by_cases h : (trim s).length < 5 <;> simp [h, pure]

theorem validateField_mensaje (s : JSString) (p : Document) :
    validateField (lit "mensaje") (.str s) p =
      (.ok (if (trim s).length < 10 then
        [(lit "mensaje", lit "El mensaje debe tener al menos 10 caracteres")] else []), p) := by
  have h₁ : lit "mensaje" ≠ lit "nombre" := by decide
  have h₂ : lit "mensaje" ≠ lit "email" := by decide
  have h₃ : lit "mensaje" ≠ lit "asunto" := by decide
  simp only [validateField, h₁, h₂, h₃, if_false, if_true, bind, tooShort_str s 10 (by decide) p]
  by_cases h : (trim s).length < 10 <;> simp [h, pure]

theorem validateField_email (s : JSString) (p : Document) :
    validateField (lit "email") (.str s) p =
      (.ok (if emailRegex.test s then [] else [(lit "email", lit "Email inválido")]), p) := by
  have h₁ : lit "email" ≠ lit "nombre" := by decide
  have hnil : emailRegex.test [] = false := by decide
  simp only [validateField, h₁, if_false, if_true, Value.toJSString, Value.truthy]
  by_cases h : s = []
  · subst h; simp [hnil, pure, bind]
  · by_cases ht : emailRegex.test s = true <;> simp [h, ht, pure, bind]

/-- Every length-checked field reports exactly one error, under its own key, when the
trimmed value is shorter than its minimum, and none otherwise. -/
theorem validateField_lengthRule (field : JSString) (min : Nat)
    (hrule : (field, min) ∈ lengthRules) (s : JSString) (p : Document) :
    ∃ msg, msg ≠ [] ∧
      validateField field (.str s) p =
        (.ok (if (trim s).length < min then [(field, msg)] else []), p) := by
  simp only [lengthRules, List.mem_cons, Prod.mk.injEq, List.mem_singleton, List.not_mem_nil,
    or_false] at hrule
  rcases hrule with ⟨rfl, rfl⟩ | ⟨rfl, rfl⟩ | ⟨rfl, rfl⟩
  · exact ⟨_, by decide, validateField_nombre s p⟩
  · exact ⟨_, by decide, validateField_asunto s p⟩
  · exact ⟨_, by decide, validateField_mensaje s p⟩

/-- C1. For each length-checked field (nombre 3, asunto 5, mensaje 10) and every string
shorter than the field's minimum, the empty string included, `validateField` returns a
mapping holding a non-empty message under the field's key. -/
theorem validateField_short_has_error (p : Document) (field : JSString) (min : Nat)
    (hrule : (field, min) ∈ lengthRules) (value : JSString) (hlen : value.length < min) :
    ∃ errors msg, (validateField field (.str value) p).1 = .ok errors ∧
      errors.lookup field = some msg ∧ msg ≠ [] := by
  obtain ⟨msg, hmsg, h⟩ := validateField_lengthRule field min hrule value p
  have hlt : (trim value).length < min := Nat.lt_of_le_of_lt (length_trim_le value) hlen
  refine ⟨[(field, msg)], msg, ?_, ?_, hmsg⟩
  · rw [h, if_pos hlt]
  · simp [List.lookup]

theorem validateField_short_has_error_witness :
    ((lit "asunto", 5) ∈ lengthRules ∧ (lit "hey").length < 5) ∧
      ∃ errors msg, (validateField (lit "asunto") (.str (lit "hey")) []).1 = .ok errors ∧
        errors.lookup (lit "asunto") = some msg ∧ msg ≠ [] :=
  ⟨⟨by decide, by decide⟩,
    validateField_short_has_error [] (lit "asunto") 5 (by decide) (lit "hey") (by decide)⟩

/-- C2, as stated, fails: three spaces have length 3, yet `nombre` is rejected. -/
theorem validateField_length_at_least_min_refuted :
    ¬ ∀ (p : Document) (field : JSString) (min : Nat), (field, min) ∈ lengthRules →
        ∀ value : JSString, min ≤ value.length →
          (validateField field (.str value) p).1 = .ok [] := by
  intro h
  have := h [] (lit "nombre") 3 (by decide) (lit "   ") (by decide)
  revert this
  decide

/-- C2, amended. For each length-checked field and every string whose length after
trimming leading and trailing whitespace is at least the field's minimum, `validateField`
returns an empty mapping. -/
theorem validateField_trimmed_long_no_error (p : Document) (field : JSString) (min : Nat)
    (hrule : (field, min) ∈ lengthRules) (value : JSString)
    (hlen : min ≤ (trim value).length) :
    (validateField field (.str value) p).1 = .ok [] := by
  obtain ⟨msg, _, h⟩ := validateField_lengthRule field min hrule value p
  rw [h, if_neg (Nat.not_lt.mpr hlen)]

theorem validateField_trimmed_long_no_error_witness :
    ((lit "mensaje", 10) ∈ lengthRules ∧ 10 ≤ (trim (lit "  hola, mundo  ")).length) ∧
      (validateField (lit "mensaje") (.str (lit "  hola, mundo  ")) []).1 = .ok [] :=
  ⟨⟨by decide, by decide⟩,
    validateField_trimmed_long_no_error [] (lit "mensaje") 10 (by decide)
      (lit "  hola, mundo  ") (by decide)⟩

/-- C3, as stated, fails: `"a b"` holds two non-whitespace characters and is accepted. -/
theorem validateField_nombre_nonWhitespace_refuted :
    ¬ ∀ (p : Document) (value : JSString),
        (validateField (lit "nombre") (.str value) p).1 = .ok [] ↔
          3 ≤ nonWhitespaceCount value := by
  intro h
  have := (h [] (lit "a b")).mp (by decide)
  revert this
  decide

/-- C3, amended. `validateField('nombre', value)` returns no error exactly when the value
with leading and trailing whitespace removed has at least 3 characters; at least 3
non-whitespace characters are therefore enough. -/
theorem validateField_nombre_iff_trimmed (p : Document) (value : JSString) :
    ((validateField (lit "nombre") (.str value) p).1 = .ok [] ↔ 3 ≤ (trim value).length) ∧
      (3 ≤ nonWhitespaceCount value → (validateField (lit "nombre") (.str value) p).1 = .ok []) := by
  have key : (validateField (lit "nombre") (.str value) p).1 = .ok [] ↔
      3 ≤ (trim value).length := by
    rw [validateField_nombre]
    by_cases h : (trim value).length < 3
    · simp [h]
    · simp [h, Nat.not_lt.mp h]
  exact ⟨key, fun h => key.mpr (Nat.le_trans h (nonWhitespaceCount_le_length_trim value))⟩

theorem validateField_nombre_iff_trimmed_witness :
    3 ≤ nonWhitespaceCount (lit " Ana María ") ∧
      (validateField (lit "nombre") (.str (lit " Ana María ")) []).1 = .ok [] :=
  ⟨by decide, (validateField_nombre_iff_trimmed [] (lit " Ana María ")).2 (by decide)⟩

/-- C4. `validateField('email', value)` returns no error exactly when the value has the
shape local@domain.tld: no whitespace, exactly one `@`, at least one character before it,
and after it a `.` that is neither first nor last. `"a@b.co"` is accepted and
`"not-an-email"` is rejected with a non-empty message under the key email. -/
theorem validateField_email_iff_shape :
    (∀ (p : Document) (value : JSString),
      (validateField (lit "email") (.str value) p).1 = .ok [] ↔ EmailShape value) ∧
    (∀ p : Document, (validateField (lit "email") (.str (lit "a@b.co")) p).1 = .ok []) ∧
    (∀ p : Document, ∃ errors msg,
      (validateField (lit "email") (.str (lit "not-an-email")) p).1 = .ok errors ∧
        errors.lookup (lit "email") = some msg ∧ msg ≠ []) := by
  refine ⟨?_, ?_, ?_⟩
  · intro p value
    rw [validateField_email, ← emailRegex_test_iff_shape]
    by_cases h : emailRegex.test value = true <;> simp [h]
  · intro p
    rw [validateField_email]
    have : emailRegex.test (lit "a@b.co") = true := by decide
    simp [this]
  · intro p
    rw [validateField_email]
    have : emailRegex.test (lit "not-an-email") = false := by decide
    exact ⟨[(lit "email", lit "Email inválido")], lit "Email inválido", by simp [this],
      by simp [List.lookup], by decide⟩

theorem Keeps.pure {σ α β : Type} {π : σ → β} (a : α) : Keeps π (pure a : JS σ α) := fun _ => rfl

theorem Keeps.throw {σ α β : Type} {π : σ → β} (e : JSError) : Keeps π (throw e : JS σ α) :=
  fun _ => rfl

theorem Keeps.bind {σ α γ β : Type} {π : σ → β} {m : JS σ α} {f : α → JS σ γ}
    (hm : Keeps π m) (hf : ∀ a, Keeps π (f a)) : Keeps π (m >>= f) := by
  intro s
  show π (match m s with | (.ok a, q) => f a q | (.error e, q) => (.error e, q)).2 = π s
  have := hm s
  rcases h : m s with ⟨r, q⟩
  rw [h] at this
  cases r with
  | ok a => exact (hf a q).trans this
  | error e => exact this

theorem Keeps.ite {σ α β : Type} {π : σ → β} {c : Prop} [Decidable c] {m₁ m₂ : JS σ α}
    (h₁ : Keeps π m₁) (h₂ : Keeps π m₂) : Keeps π (if c then m₁ else m₂) := by
  split <;> assumption

theorem Keeps.deref {σ α β : Type} {π : σ → β} (o : Option α) : Keeps π (deref o : JS σ α) := by
  cases o <;> intro _ <;> rfl

theorem Keeps.getElementById {β : Type} {π : Document → β} (id : JSString) :
    Keeps π (getElementById id) := fun _ => rfl

theorem Keeps.getState {σ β : Type} {π : σ → β} : Keeps π (getState : JS σ σ) := fun _ => rfl

theorem Keeps.readElem {β : Type} {π : Document → β} (i : Nat) : Keeps π (readElem i) := by
  intro d
  unfold HLN.readElem
  split <;> rfl

theorem frame_updateElem (f : Element → Element) (hf : ∀ e, (f e).core = e.core) (i : Nat)
    (d : Document) : frame (updateElem f i d) = frame d := by
  induction d generalizing i with
  | nil => cases i <;> rfl
  | cons e es ih =>
    cases i with
    | zero => simp [updateElem, frame, hf]
    | succ i =>
      have := ih i
      simp only [frame] at this
      simp [updateElem, frame, this]

theorem Keeps.modifyElem (f : Element → Element) (hf : ∀ e, (f e).core = e.core) (i : Nat) :
    Keeps frame (modifyElem i f) := fun d => frame_updateElem f hf i d

theorem keeps_showFieldError (fieldName : JSString) (hasError : Bool) (message : JSString) :
    Keeps frame (showFieldError fieldName hasError message) := by
  unfold showFieldError
  refine Keeps.bind (Keeps.getElementById _) fun field => ?_
  refine Keeps.bind (Keeps.getElementById _) fun errorElement => ?_
  refine Keeps.bind (Keeps.deref _) fun i => ?_
  refine Keeps.bind (Keeps.readElem _) fun e => ?_
  dsimp only
  repeat (first
    | exact Keeps.pure _
    | exact Keeps.deref _
    | (refine Keeps.modifyElem _ ?_ _; intro _; rfl)
    | refine Keeps.ite ?_ ?_
    | refine Keeps.bind ?_ (fun _ => ?_)
    | split)

theorem validateField_readOnly (fieldName : JSString) (value : Value) (d : Document) :
    (validateField fieldName value d).2 = d := by
  have h : Keeps id (validateField fieldName value) := by
    unfold validateField tooShort
    repeat (first
      | exact Keeps.pure _
      | exact Keeps.throw _
      | exact Keeps.deref _
      | exact Keeps.getElementById _
      | exact Keeps.readElem _
      | refine Keeps.ite ?_ ?_
      | refine Keeps.bind ?_ (fun _ => ?_)
      | split
      | (cases value <;> simp only [Value.trim]))
  exact h d

theorem keeps_validateFormEach (acc : FormCheck) (entry : JSString × Value) :
    Keeps frame (validateFormEach acc entry) := by
  unfold validateFormEach
  refine Keeps.bind (fun d => by rw [validateField_readOnly]) fun errors => ?_
  repeat (first
    | exact Keeps.pure _
    | exact keeps_showFieldError _ _ _
    | refine Keeps.ite ?_ ?_
    | refine Keeps.bind ?_ (fun _ => ?_))

theorem Keeps.foldlM {σ α γ β : Type} {π : σ → β} (f : γ → α → JS σ γ)
    (hf : ∀ c a, Keeps π (f c a)) (l : List α) (c : γ) : Keeps π (l.foldlM f c) := by
  induction l generalizing c with
  | nil => exact Keeps.pure _
  | cons a l ih =>
    rw [List.foldlM_cons]
    exact Keeps.bind (hf c a) fun c' => ih c'

theorem keeps_valueOf (id : JSString) : Keeps frame (valueOf id) := by
  unfold valueOf
  repeat (first
    | exact Keeps.pure _
    | exact Keeps.deref _
    | exact Keeps.getElementById _
    | exact Keeps.readElem _
    | refine Keeps.bind ?_ (fun _ => ?_))

theorem keeps_checkedOf (id : JSString) : Keeps frame (checkedOf id) := by
  unfold checkedOf
  repeat (first
    | exact Keeps.pure _
    | exact Keeps.deref _
    | exact Keeps.getElementById _
    | exact Keeps.readElem _
    | refine Keeps.bind ?_ (fun _ => ?_))

/-- Validation changes nothing but class lists and text contents. -/
theorem keeps_validateForm : Keeps frame validateForm := by
  unfold validateForm
  repeat (first
    | exact Keeps.pure _
    | exact keeps_valueOf _
    | exact keeps_checkedOf _
    | exact Keeps.foldlM _ keeps_validateFormEach _ _
    | refine Keeps.bind ?_ (fun _ => ?_))

/-! ## Reading the document through its frame -/

theorem length_frame (d : Document) : (frame d).length = d.length := by
  simp [frame]

theorem length_eq_of_frame {d d' : Document} (h : frame d' = frame d) : d'.length = d.length := by
  rw [← length_frame d', h, length_frame]

theorem map_id_frame (d : Document) : (frame d).map Element.id = d.map Element.id := by
  simp [frame, List.map_map, Function.comp_def, Element.core]

theorem findById_frame {d d' : Document} (h : frame d' = frame d) (id : JSString) :
    findById id d' = findById id d := by
  unfold findById
  rw [← map_id_frame d', ← map_id_frame d, h, length_eq_of_frame h]

theorem findById_lt {d : Document} {id : JSString} {i : Nat} (h : findById id d = some i) :
    i < d.length := by
  simp only [findById] at h
  split at h
  · rename_i hc
    cases h
    exact hc.2
  · cases h

theorem getElem?_frame {d d' : Document} (h : frame d' = frame d) (i : Nat) :
    (d'[i]?).map Element.core = (d[i]?).map Element.core := by
  have := congrArg (fun l : Document => l[i]?) h
  simpa [frame, List.getElem?_map] using this

theorem fieldPresent_frame {d d' : Document} (h : frame d' = frame d) (f : JSString) :
    fieldPresent d' f = fieldPresent d f := by
  unfold fieldPresent
  rw [findById_frame h]
  cases findById f d with
  | none => rfl
  | some i =>
    have := getElem?_frame h i
    cases h₁ : d'[i]? <;> cases h₂ : d[i]? <;> simp only [h₁, h₂, Option.map] at this ⊢
    · cases this
    · cases this
    · have := congrArg Element.parentElement (Option.some.inj this)
      simp only [Element.core] at this
      rw [this]

theorem checkedOf_frame {d d' : Document} (h : frame d' = frame d) (id : JSString) :
    (checkedOf id d').1 = (checkedOf id d).1 := by
  simp only [checkedOf, bind, getElementById, findById_frame h id]
  cases findById id d with
  | none => rfl
  | some i =>
    have := getElem?_frame h i
    simp only [deref, pure, readElem]
    cases h₁ : d'[i]? <;> cases h₂ : d[i]? <;> simp only [h₁, h₂, Option.map] at this ⊢
    · cases this
    · cases this
    · have := congrArg Element.checked (Option.some.inj this)
      simp only [Element.core] at this
      rw [this]

theorem fieldPresent_iff {d : Document} {f : JSString} :
    fieldPresent d f = true ↔
      ∃ i e g, findById f d = some i ∧ d[i]? = some e ∧ e.parentElement = some g := by
  unfold fieldPresent
  cases findById f d with
  | none => simp
  | some i =>
    cases he : d[i]? with
    | none => simp [he]
    | some e =>
      cases h : e.parentElement <;> simp [he, h]

theorem showFieldError_ok (f : JSString) (hasError : Bool) (message : JSString) (d : Document)
    (hp : fieldPresent d f = true) :
    ∃ d', showFieldError f hasError message d = (.ok (), d') ∧ frame d' = frame d := by
  have hk := keeps_showFieldError f hasError message d
  obtain ⟨i, e, g, hi, he, hg⟩ := fieldPresent_iff.mp hp
  refine ⟨(showFieldError f hasError message d).2, ?_, hk⟩
  refine Prod.ext ?_ rfl
  simp only [showFieldError, bind, getElementById, hi, deref, pure, readElem, he, hg,
    Option.isNone_some, modifyElem, modifyState]
  cases hasError <;> cases findById (f ++ lit "-error") d <;> cases message <;> rfl

theorem valueOf_ok (f : JSString) (d : Document) (hp : fieldPresent d f = true) :
    ∃ v, valueOf f d = (.ok v, d) := by
  obtain ⟨i, e, g, hi, he, hg⟩ := fieldPresent_iff.mp hp
  exact ⟨e.value, by simp [valueOf, bind, getElementById, hi, deref, pure, readElem, he]⟩

theorem checkedOf_ok (f : JSString) (d : Document) (hp : fieldPresent d f = true) :
    ∃ c, checkedOf f d = (.ok c, d) := by
  obtain ⟨i, e, g, hi, he, hg⟩ := fieldPresent_iff.mp hp
  exact ⟨e.checked, by simp [checkedOf, bind, getElementById, hi, deref, pure, readElem, he]⟩

theorem validateField_terminos (v : Value) (d : Document) (c : Bool)
    (hc : (checkedOf (lit "terminos") d).1 = .ok c) :
    validateField (lit "terminos") v d =
      (.ok (if c then [] else [(lit "terminos", lit "Debes aceptar los términos")]), d) := by
  have h₁ : lit "terminos" ≠ lit "nombre" := by decide
  have h₂ : lit "terminos" ≠ lit "email" := by decide
  have h₃ : lit "terminos" ≠ lit "asunto" := by decide
  have h₄ : lit "terminos" ≠ lit "mensaje" := by decide
  simp only [validateField, h₁, h₂, h₃, h₄, if_false, if_true]
  simp only [checkedOf, bind, getElementById, deref, pure, readElem] at hc ⊢
  cases hf : findById (lit "terminos") d with
  | none => simp [hf, throw, throwThe, MonadExceptOf.throw] at hc
  | some i =>
    simp only [hf] at hc ⊢
    cases he : d[i]? with
    | none => simp [he] at hc
    | some e =>
      simp only [he] at hc ⊢
      cases hc
      cases e.checked <;> rfl

theorem validateFormEach_ok (acc : FormCheck) (f : JSString) (v : Value) (d : Document)
    (errors : Errors) (hp : fieldPresent d f = true)
    (hv : validateField f v d = (.ok errors, d)) :
    ∃ d', validateFormEach acc (f, v) d =
        (.ok (if errors.nonEmpty then
          { allErrors := acc.allErrors.spread errors, isValid := false } else acc), d') ∧
      frame d' = frame d := by
  by_cases hne : errors.nonEmpty = true
  · obtain ⟨d', h', hf'⟩ := showFieldError_ok f true ((errors.lookup f).getD []) d hp
    exact ⟨d', by simp [validateFormEach, bind, hv, hne, h', pure], hf'⟩
  · obtain ⟨d', h', hf'⟩ := showFieldError_ok f false [] d hp
    exact ⟨d', by simp [validateFormEach, bind, hv, hne, h', pure], hf'⟩

/-! ## `validateForm` on a form whose terms checkbox is unchecked -/

theorem validateFormEach_step (acc : FormCheck) (f : JSString) (v : Value) (d : Document)
    (errors : Errors) (hp : fieldPresent d f = true)
    (hv : validateField f v d = (.ok errors, d)) :
    ∃ acc' d', validateFormEach acc (f, v) d = (.ok acc', d') ∧ frame d' = frame d ∧
      (errors.nonEmpty = true → acc'.isValid = false) := by
  obtain ⟨d', h, hf⟩ := validateFormEach_ok acc f v d errors hp hv
  refine ⟨_, d', h, hf, ?_⟩
  intro hne
  rw [if_pos hne]

theorem validateForm_unchecked (d : Document) (hform : FormPresent d)
    (hunchecked : (checkedOf (lit "terminos") d).1 = .ok false) :
    ∃ d', validateForm d = (.ok false, d') ∧ frame d' = frame d := by
  have hp : ∀ f ∈ formFields, ∀ d', frame d' = frame d → fieldPresent d' f = true :=
    fun f hf d' hd' => (fieldPresent_frame hd' f).trans (hform f hf)
  obtain ⟨v₁, hv₁⟩ := valueOf_ok (lit "nombre") d (hform _ (by decide))
  obtain ⟨v₂, hv₂⟩ := valueOf_ok (lit "email") d (hform _ (by decide))
  obtain ⟨v₃, hv₃⟩ := valueOf_ok (lit "asunto") d (hform _ (by decide))
  obtain ⟨v₄, hv₄⟩ := valueOf_ok (lit "mensaje") d (hform _ (by decide))
  obtain ⟨c, hc⟩ := checkedOf_ok (lit "terminos") d (hform _ (by decide))
  obtain ⟨a₁, d₁, h₁, f₁, -⟩ := validateFormEach_step {} (lit "nombre") (.str v₁) d _
    (hform _ (by decide)) (validateField_nombre v₁ d)
  obtain ⟨a₂, d₂, h₂, f₂, -⟩ := validateFormEach_step a₁ (lit "email") (.str v₂) d₁ _
    (hp _ (by decide) d₁ f₁) (validateField_email v₂ d₁)
  replace f₂ := f₂.trans f₁
  obtain ⟨a₃, d₃, h₃, f₃, -⟩ := validateFormEach_step a₂ (lit "asunto") (.str v₃) d₂ _
    (hp _ (by decide) d₂ f₂) (validateField_asunto v₃ d₂)
  replace f₃ := f₃.trans f₂
  obtain ⟨a₄, d₄, h₄, f₄, -⟩ := validateFormEach_step a₃ (lit "mensaje") (.str v₄) d₃ _
    (hp _ (by decide) d₃ f₃) (validateField_mensaje v₄ d₃)
  replace f₄ := f₄.trans f₃
  obtain ⟨a₅, d₅, h₅, f₅, hinvalid⟩ := validateFormEach_step a₄ (lit "terminos") (.bool c) d₄ _
    (hp _ (by decide) d₄ f₄)
    (validateField_terminos (.bool c) d₄ false ((checkedOf_frame f₄ _).trans hunchecked))
  replace f₅ := f₅.trans f₄
  refine ⟨d₅, ?_, f₅⟩
  have hfalse : a₅.isValid = false := hinvalid (by decide)
  simp only [validateForm, bind, hv₁, hv₂, hv₃, hv₄, hc, List.foldlM_cons, List.foldlM_nil,
    h₁, h₂, h₃, h₄, h₅, pure, hfalse]

/-! ## Element updates -/

theorem length_updateElem (f : Element → Element) (i : Nat) (d : Document) :
    (updateElem f i d).length = d.length := by
  induction d generalizing i with
  | nil => cases i <;> rfl
  | cons e es ih => cases i <;> simp [updateElem, ih]

theorem updateElem_updateElem (f g : Element → Element) (i : Nat) (d : Document) :
    updateElem g i (updateElem f i d) = updateElem (fun e => g (f e)) i d := by
  induction d generalizing i with
  | nil => cases i <;> rfl
  | cons e es ih => cases i <;> simp [updateElem, ih]

theorem getElem?_updateElem_self (f : Element → Element) (i : Nat) (d : Document) :
    (updateElem f i d)[i]? = (d[i]?).map f := by
  induction d generalizing i with
  | nil => cases i <;> rfl
  | cons e es ih => cases i <;> simp [updateElem, ih]

theorem map_updateElem {β : Type} (π : Element → β) (f : Element → Element)
    (hf : ∀ e, π (f e) = π e) (i : Nat) (d : Document) :
    (updateElem f i d).map π = d.map π := by
  induction d generalizing i with
  | nil => cases i <;> rfl
  | cons e es ih => cases i <;> simp [updateElem, ih, hf]

/-! ## The banner -/

/-- What `showMessage` writes to the banner element. -/
theorem showMessage_eq (message type : JSString) (p : Page) (k : Nat)
    (hk : p.formMessage = some k) :
    showMessage message type p =
      (.ok (), { p with
        elems := updateElem (fun e =>
          { e with textContent := message,
                   classList := classTokens (lit "form-message " ++ type) }) k p.elems
        timers := p.timers ++ [{ delay := 5000, type := type }]
        scrolledTo := some k }) := by
  simp [showMessage, bind, getState, hk, deref, pure, onDocument, modifyElem, modifyState,
    updateElem_updateElem]

theorem showMessage_null (message type : JSString) (p : Page) (hk : p.formMessage = none) :
    showMessage message type p = (.error JSError.typeError, p) := by
  simp [showMessage, bind, getState, hk, deref, throw, throwThe, MonadExceptOf.throw]

theorem handleFormSubmit_of_invalid (net : NetOutcome) (p : Page) (d' : Document)
    (h : validateForm p.elems = (.ok false, d')) :
    handleFormSubmit net p =
      showMessage invalidFormMessage (lit "error")
        { p with elems := d', defaultPrevented := true } := by
  simp only [handleFormSubmit, bind, modifyState, onDocument, h, pure, invalidFormMessage]
  simp only [Bool.not_false, if_true]
  split <;> rename_i h' <;> rw [h']

/-- Models `try { m } catch { h } finally { f }` on a state. -/
theorem tryFinally_tryCatch_eq {σ α β : Type} (m : JS σ α) (h : JSError → JS σ α) (f : JS σ β)
    (s : σ) :
    tryFinally (tryCatch m h) f s =
      (match m s with
        | (.ok a, q) =>
          (match f q with
            | (.ok _, r) => (.ok a, r)
            | (.error e, r) => (.error e, r))
        | (.error e, q) =>
          (match h e q with
            | (.ok a, q') =>
              (match f q' with
                | (.ok _, r) => (.ok a, r)
                | (.error e', r) => (.error e', r))
            | (.error e', q') =>
              (match f q' with
                | (.ok _, r) => (.error e', r)
                | (.error e'', r) => (.error e'', r)))) := by
  simp only [tryFinally, tryFinally', Functor.map, tryCatch, tryCatchThe, MonadExceptOf.tryCatch]
  rcases hm : m s with ⟨e | a, q⟩
  · simp only [bind, hm, pure, Function.comp]
    rcases hh : h e q with ⟨e' | a, q'⟩
    · simp only []
      rcases hf : f q' with ⟨_ | _, r⟩ <;> simp only []
    · simp only []
      rcases hf : f q' with ⟨_ | _, r⟩ <;> simp only []
  · simp only [bind, hm, pure, Function.comp]
    rcases hf : f q with ⟨_ | _, r⟩ <;> simp only []

theorem handleFormSubmit_of_valid (net : NetOutcome) (p : Page) (d' : Document) (b : Nat)
    (h : validateForm p.elems = (.ok true, d')) (hb : p.submitBtn = some b) :
    handleFormSubmit net p =
      tryFinally (tryCatch (sendForm net) fun _ => reportFailure) (restoreButton b)
        { p with
          elems := updateElem (fun e => { e with disabled := true, textContent := lit "Enviando..." })
            b d'
          defaultPrevented := true } := by
  simp only [handleFormSubmit, bind, modifyState, onDocument, h, pure, getState, deref, hb,
    modifyElem, updateElem_updateElem]
  simp only [Bool.not_true, Bool.false_eq_true, if_false]

/-! ## The three blocks of the handler -/

theorem restoreButton_eq (b : Nat) (p : Page) :
    restoreButton b p =
      (.ok (), { p with elems := updateElem (fun e =>
        { e with disabled := false, textContent := lit "Enviar" }) b p.elems }) := by
  simp [restoreButton, bind, onDocument, modifyElem, modifyState, updateElem_updateElem]

theorem reportFailure_eq (p : Page) :
    reportFailure p =
      showMessage retryMessage (lit "error") { p with console := p.console ++ [lit "Error:"] } := by
  simp [reportFailure, bind, modifyState, retryMessage]

theorem sendForm_rejected (p : Page) :
    ∃ e q, sendForm .rejected p = (.error e, q) ∧ q.elems = p.elems ∧
      q.formMessage = p.formMessage := by
  cases hc : p.contactForm <;>
    simp [sendForm, bind, getState, newFormData, hc, deref, pure, fetch, modifyState, throw,
      throwThe, MonadExceptOf.throw] <;>
    exact ⟨_, _, ⟨rfl, rfl⟩, rfl, rfl⟩

theorem sendForm_invalidJson (p : Page) :
    ∃ e q, sendForm .invalidJson p = (.error e, q) ∧ q.elems = p.elems ∧
      q.formMessage = p.formMessage := by
  cases hc : p.contactForm <;>
    simp [sendForm, bind, getState, newFormData, hc, deref, pure, fetch, modifyState, throw,
      throwThe, MonadExceptOf.throw, NetOutcome.json!] <;>
    exact ⟨_, _, ⟨rfl, rfl⟩, rfl, rfl⟩

theorem sendForm_failure (message : JSString) (p : Page) (c : Nat)
    (hc : p.contactForm = some c) :
    sendForm (.json ⟨false, message⟩) p =
      showMessage message (lit "error")
        { p with requests := p.requests ++
          [⟨lit "backend/handlers/form-handler.php", lit "POST", formEntries c p.elems⟩] } := by
  simp [sendForm, bind, getState, newFormData, hc, deref, pure, fetch, modifyState,
    NetOutcome.json!]

theorem showMessage_run (message type : JSString) (p : Page) :
    showMessage message type p =
      (match p.formMessage with
        | some k => (.ok (), { p with
            elems := updateElem (fun e =>
              { e with textContent := message,
                       classList := classTokens (lit "form-message " ++ type) }) k p.elems
            timers := p.timers ++ [{ delay := 5000, type := type }]
            scrolledTo := some k })
        | none => (.error JSError.typeError, p)) := by
  cases hk : p.formMessage with
  | none => rw [showMessage_null message type p hk]
  | some k => rw [showMessage_eq message type p k hk]; simp only [hk]

theorem sendForm_success (message : JSString) (p : Page) (c k : Nat)
    (hc : p.contactForm = some c) (hk : p.formMessage = some k) :
    sendForm (.json ⟨true, message⟩) p =
      (.ok (), { p with
        elems :=
          (((updateElem
              (fun e => { e with
                textContent := message
                classList := classTokens (lit "form-message " ++ lit "success") }) k p.elems).map
              (resetControl c)).map
              (removeClassIfMatches [lit "form-group", lit "error"] (lit "error"))).map
              (removeClassIfMatches [lit "error-message"] (lit "show"))
        requests := p.requests ++
          [⟨lit "backend/handlers/form-handler.php", lit "POST", formEntries c p.elems⟩]
        timers := p.timers ++ [{ delay := 5000, type := lit "success" }]
        scrolledTo := some k }) := by
  simp only [sendForm, bind, getState, newFormData, hc, deref, pure, fetch, modifyState,
    NetOutcome.json!, if_true]
  simp [showMessage_run, hk, formReset, bind, deref, pure, onDocument, modifyState,
    removeClassFromAll]

/-! ## The document keeps its size -/

theorem Keeps.modifyState {σ β : Type} {π : σ → β} (f : σ → σ) (hf : ∀ s, π (f s) = π s) :
    Keeps π (modifyState f) := hf

theorem Keeps.tryCatch {σ α β : Type} {π : σ → β} {m : JS σ α} {h : JSError → JS σ α}
    (hm : Keeps π m) (hh : ∀ e, Keeps π (h e)) : Keeps π (tryCatch m h) := by
  intro s
  show π (match m s with | (Except.ok a, q) => (Except.ok a, q) | (Except.error e, q) => h e q).2 = π s
  have := hm s
  rcases hms : m s with ⟨e | a, q⟩
  · rw [hms] at this
    exact (hh e q).trans this
  · rw [hms] at this
    exact this

theorem Keeps.onDocument {α : Type} {m : JS Document α} (hm : Keeps List.length m) :
    Keeps (fun p : Page => p.elems.length) (onDocument m) := fun p => hm p.elems

theorem keeps_length_modifyElem (i : Nat) (f : Element → Element) :
    Keeps List.length (modifyElem i f) := fun d => length_updateElem f i d

theorem keeps_length_showMessage (message type : JSString) :
    Keeps (fun p : Page => p.elems.length) (showMessage message type) := by
  unfold showMessage
  repeat (first
    | exact Keeps.getState
    | exact Keeps.deref _
    | exact Keeps.onDocument (keeps_length_modifyElem _ _)
    | exact Keeps.modifyState _ (fun _ => rfl)
    | refine Keeps.bind ?_ (fun _ => ?_))

theorem keeps_length_sendForm (net : NetOutcome) :
    Keeps (fun p : Page => p.elems.length) (sendForm net) := by
  unfold sendForm newFormData fetch formReset
  repeat (first
    | exact Keeps.getState
    | exact Keeps.pure _
    | exact Keeps.throw _
    | exact Keeps.deref _
    | exact keeps_length_showMessage _ _
    | exact Keeps.onDocument (fun d => List.length_map _ _)
    | exact Keeps.modifyState _ (fun _ => rfl)
    | refine Keeps.ite ?_ ?_
    | refine Keeps.bind ?_ (fun _ => ?_)
    | (rename_i r; cases r <;> simp only [NetOutcome.json!]))

theorem keeps_length_reportFailure :
    Keeps (fun p : Page => p.elems.length) reportFailure := by
  unfold reportFailure
  exact Keeps.bind (Keeps.modifyState _ fun _ => rfl) fun _ => keeps_length_showMessage _ _

/-- Whatever happens in `try` and `catch`, the `finally` block runs last. -/
theorem tryFinally_tryCatch_state {σ α β : Type} (m : JS σ α) (h : JSError → JS σ α)
    (f : JS σ β) (s : σ) :
    (tryFinally (tryCatch m h) f s).2 = (f (tryCatch m h s).2).2 := by
  rw [tryFinally_tryCatch_eq]
  show _ = (f (match m s with | (Except.ok a, q) => (Except.ok a, q) | (Except.error e, q) => h e q).2).2
  rcases hm : m s with ⟨e | a, q⟩
  · simp only []
    rcases hh : h e q with ⟨e' | a, q'⟩ <;> simp only [] <;>
      rcases hf : f q' with ⟨_ | _, r⟩ <;> simp only []
  · simp only []
    rcases hf : f q with ⟨_ | _, r⟩ <;> simp only []

theorem getElem?_updateElem_ne (f : Element → Element) {i j : Nat} (h : i ≠ j) (d : Document) :
    (updateElem f i d)[j]? = d[j]? := by
  induction d generalizing i j with
  | nil => cases i <;> rfl
  | cons e es ih =>
    cases i with
    | zero =>
      cases j with
      | zero => exact absurd rfl h
      | succ j => rfl
    | succ i =>
      cases j with
      | zero => simp [updateElem]
      | succ j =>
        simp only [updateElem, List.getElem?_cons_succ]
        exact ih fun hij => h (congrArg Nat.succ hij)

theorem mem_updateElem {f : Element → Element} {i : Nat} {d : Document} {e : Element}
    (h : e ∈ updateElem f i d) : e ∈ d ∨ ∃ e' ∈ d, e = f e' := by
  induction d generalizing i with
  | nil => cases i <;> simp [updateElem] at h
  | cons x xs ih =>
    cases i with
    | zero =>
      simp only [updateElem, List.mem_cons] at h
      rcases h with rfl | h
      · exact Or.inr ⟨x, List.mem_cons_self _ _, rfl⟩
      · exact Or.inl (List.mem_cons_of_mem _ h)
    | succ i =>
      simp only [updateElem, List.mem_cons] at h
      rcases h with rfl | h
      · exact Or.inl (List.mem_cons_self _ _)
      · rcases ih h with h' | ⟨e', he', rfl⟩
        · exact Or.inl (List.mem_cons_of_mem _ h')
        · exact Or.inr ⟨e', List.mem_cons_of_mem _ he', rfl⟩

theorem map_eq_of_frame {β : Type} (π : Element → β) (hπ : ∀ e, π e.core = π e)
    {d d' : Document} (h : frame d' = frame d) : d'.map π = d.map π := by
  have key : ∀ l : Document, (frame l).map π = l.map π := by
    intro l
    simp [frame, List.map_map, Function.comp_def, hπ]
  rw [← key d', h, key d]

theorem classTokens_error :
    classTokens (lit "form-message " ++ lit "error") = [lit "form-message", lit "error"] := by
  decide

theorem classTokens_success :
    classTokens (lit "form-message " ++ lit "success") = [lit "form-message", lit "success"] := by
  decide

theorem validateForm_run {d : Document} {r : Bool} (h : (validateForm d).1 = .ok r) :
    ∃ d', validateForm d = (.ok r, d') ∧ frame d' = frame d :=
  ⟨(validateForm d).2, Prod.ext h rfl, keeps_validateForm d⟩

/-- C5. With the terms checkbox unchecked, whatever the other four fields hold,
`validateForm` returns false and `handleFormSubmit` shows the aggregate error banner and
returns: no element's `disabled` flag changes and no request is sent. -/
theorem unchecked_terms_block_submission (p : Page) (net : NetOutcome) (k : Nat)
    (hform : FormPresent p.elems) (hbanner : p.formMessage = some k) (hk : k < p.elems.length)
    (hunchecked : (checkedOf (lit "terminos") p.elems).1 = .ok false) :
    (validateForm p.elems).1 = .ok false ∧
      ∃ q banner, handleFormSubmit net p = (.ok (), q) ∧
        q.elems[k]? = some banner ∧ banner.textContent = invalidFormMessage ∧
        banner.classList = [lit "form-message", lit "error"] ∧
        q.elems.map Element.disabled = p.elems.map Element.disabled ∧
        q.requests = p.requests := by
  obtain ⟨d', hd', hf⟩ := validateForm_unchecked p.elems hform hunchecked
  have hlen : k < d'.length := by rw [length_eq_of_frame hf]; exact hk
  refine ⟨by rw [hd'], ?_⟩
  rw [handleFormSubmit_of_invalid net p d' hd', showMessage_run]
  simp only [hbanner]
  refine ⟨_, { d'[k] with textContent := invalidFormMessage,
                           classList := classTokens (lit "form-message " ++ lit "error") },
    rfl, ?_, rfl, classTokens_error, ?_, rfl⟩
  · show (updateElem _ k d')[k]? = _
    rw [getElem?_updateElem_self, List.getElem?_eq_getElem hlen]
    rfl
  · show (updateElem _ k d').map Element.disabled = _
    refine Eq.trans (map_updateElem Element.disabled _ ?_ k d')
      (map_eq_of_frame Element.disabled (fun _ => rfl) hf)
    intro _
    rfl

theorem unchecked_terms_block_submission_witness :
    (FormPresent (examplePage "Ana" "ana@hln.pe" "Tablero" "Necesito una cotización" false).elems ∧
      (examplePage "Ana" "ana@hln.pe" "Tablero" "Necesito una cotización" false).formMessage =
        some 14 ∧
      14 < (examplePage "Ana" "ana@hln.pe" "Tablero" "Necesito una cotización" false).elems.length ∧
      (checkedOf (lit "terminos")
        (examplePage "Ana" "ana@hln.pe" "Tablero" "Necesito una cotización" false).elems).1 =
          .ok false) ∧
    ((validateForm
        (examplePage "Ana" "ana@hln.pe" "Tablero" "Necesito una cotización" false).elems).1 =
          .ok false ∧
      ∃ q banner,
        handleFormSubmit .rejected
            (examplePage "Ana" "ana@hln.pe" "Tablero" "Necesito una cotización" false) =
          (.ok (), q) ∧
        q.elems[14]? = some banner ∧ banner.textContent = invalidFormMessage ∧
        banner.classList = [lit "form-message", lit "error"] ∧
        q.elems.map Element.disabled =
          (examplePage "Ana" "ana@hln.pe" "Tablero" "Necesito una cotización" false).elems.map
            Element.disabled ∧
        q.requests =
          (examplePage "Ana" "ana@hln.pe" "Tablero" "Necesito una cotización" false).requests) :=
  ⟨⟨by decide, by decide, by decide, by decide⟩,
    unchecked_terms_block_submission _ .rejected 14 (by decide) (by decide) (by decide)
      (by decide)⟩

/-! ## After a successful validation -/

theorem mem_classRemove {c x : JSString} {cl : List JSString} :
    x ∈ classRemove c cl ↔ x ∈ cl ∧ x ≠ c := by
  simp [classRemove]

theorem removeClassIfMatches_fields (selector : List JSString) (c : JSString) (e : Element) :
    (removeClassIfMatches selector c e).core = e.core ∧
      (removeClassIfMatches selector c e).textContent = e.textContent := by
  unfold removeClassIfMatches
  split <;> exact ⟨rfl, rfl⟩

theorem removeClassIfMatches_subset (selector : List JSString) (c x : JSString) (e : Element)
    (h : x ∈ (removeClassIfMatches selector c e).classList) : x ∈ e.classList := by
  unfold removeClassIfMatches at h
  split at h
  · exact (mem_classRemove.mp h).1
  · exact h

theorem removeClassIfMatches_clears (a c : JSString) (e : Element)
    (ha : a ∈ (removeClassIfMatches [a, c] c e).classList) :
    c ∉ (removeClassIfMatches [a, c] c e).classList := by
  unfold removeClassIfMatches at ha ⊢
  split
  · intro h
    exact (mem_classRemove.mp h).2 rfl
  · rename_i hsel
    rw [if_neg hsel] at ha
    intro hc
    apply hsel
    simp [ha, hc]

theorem removeClassIfMatches_clears_one (a c : JSString) (e : Element)
    (ha : a ∈ (removeClassIfMatches [a] c e).classList) :
    c ∉ (removeClassIfMatches [a] c e).classList := by
  unfold removeClassIfMatches at ha ⊢
  split
  · intro h
    exact (mem_classRemove.mp h).2 rfl
  · rename_i hsel
    rw [if_neg hsel] at ha
    exact absurd (by simp [ha]) hsel

theorem resetControl_frame (c : Nat) (e : Element) :
    (resetControl c e).form = e.form ∧ (resetControl c e).type = e.type ∧
      (resetControl c e).defaultValue = e.defaultValue ∧
      (resetControl c e).defaultChecked = e.defaultChecked := by
  unfold resetControl
  split_ifs <;> exact ⟨rfl, rfl, rfl, rfl⟩

theorem resetControl_reset (c : Nat) (e : Element) (h : (resetControl c e).form = some c) :
    (resetControl c e).checked = (resetControl c e).defaultChecked ∧
      (valueFollowsAttribute (resetControl c e).type = true →
        (resetControl c e).value = e.value) ∧
      (valueFollowsAttribute (resetControl c e).type = false →
        (resetControl c e).type ≠ lit "file" →
        (resetControl c e).value = (resetControl c e).defaultValue) := by
  have hform : e.form = some c := (resetControl_frame c e).1.symm.trans h
  unfold resetControl
  rw [if_pos hform]
  split_ifs with h₁ h₂
  · exact ⟨rfl, fun _ => rfl, fun h' => absurd (h₁.symm.trans h') (by decide)⟩
  · exact ⟨rfl, fun h' => absurd h' h₁, fun _ h' => absurd h₂ h'⟩
  · exact ⟨rfl, fun h' => absurd h' h₁, fun _ _ => rfl⟩

theorem resetControl_fields (c : Nat) (e : Element) :
    (resetControl c e).classList = e.classList ∧ (resetControl c e).textContent = e.textContent := by
  unfold resetControl
  split_ifs <;> exact ⟨rfl, rfl⟩

theorem core_eq_fields {a b : Element} (h : a.core = b.core) :
    a.form = b.form ∧ a.type = b.type ∧ a.value = b.value ∧ a.checked = b.checked ∧
      a.defaultValue = b.defaultValue ∧ a.defaultChecked = b.defaultChecked := by
  have h₁ := congrArg Element.form h
  have h₂ := congrArg Element.type h
  have h₃ := congrArg Element.value h
  have h₄ := congrArg Element.checked h
  have h₅ := congrArg Element.defaultValue h
  have h₆ := congrArg Element.defaultChecked h
  exact ⟨h₁, h₂, h₃, h₄, h₅, h₆⟩

theorem cleared_of_mem (c : Nat) (d : Document) (x : Element)
    (hx : x ∈ ((d.map (resetControl c)).map
      (removeClassIfMatches [lit "form-group", lit "error"] (lit "error"))).map
      (removeClassIfMatches [lit "error-message"] (lit "show"))) :
    (x.form = some c → valueFollowsAttribute x.type = false → x.type ≠ lit "file" →
        x.value = x.defaultValue) ∧
      (x.form = some c → x.checked = x.defaultChecked) ∧
      (lit "form-group" ∈ x.classList → lit "error" ∉ x.classList) ∧
      (lit "error-message" ∈ x.classList → lit "show" ∉ x.classList) := by
  simp only [List.mem_map] at hx
  obtain ⟨_, ⟨_, ⟨y, _, rfl⟩, rfl⟩, rfl⟩ := hx
  refine ⟨?_, ?_, ?_, ?_⟩
  · intro hform hv hfile
    have h₂ := (removeClassIfMatches_fields [lit "error-message"] (lit "show")
      (removeClassIfMatches [lit "form-group", lit "error"] (lit "error") (resetControl c y))).1
    have h₁ := (removeClassIfMatches_fields [lit "form-group", lit "error"] (lit "error")
      (resetControl c y)).1
    obtain ⟨e₁, e₂, e₃, e₄, e₅, e₆⟩ := core_eq_fields (h₂.trans h₁)
    rw [e₁] at hform
    rw [e₂] at hv hfile
    rw [e₃, e₅]
    exact (resetControl_reset c y hform).2.2 hv hfile
  · intro hform
    have h₂ := (removeClassIfMatches_fields [lit "error-message"] (lit "show")
      (removeClassIfMatches [lit "form-group", lit "error"] (lit "error") (resetControl c y))).1
    have h₁ := (removeClassIfMatches_fields [lit "form-group", lit "error"] (lit "error")
      (resetControl c y)).1
    obtain ⟨e₁, e₂, e₃, e₄, e₅, e₆⟩ := core_eq_fields (h₂.trans h₁)
    rw [e₁] at hform
    rw [e₄, e₆]
    exact (resetControl_reset c y hform).1
  · intro hg he
    exact removeClassIfMatches_clears (lit "form-group") (lit "error") (resetControl c y)
      (removeClassIfMatches_subset _ _ _ _ hg) (removeClassIfMatches_subset _ _ _ _ he)
  · exact removeClassIfMatches_clears_one (lit "error-message") (lit "show") _

theorem fieldValues_updateElem (f : Element → Element)
    (hf : ∀ e, (f e).value = e.value ∧ (f e).checked = e.checked) (i : Nat) (d : Document) :
    fieldValues (updateElem f i d) = fieldValues d :=
  map_updateElem _ f (fun e => by rw [(hf e).1, (hf e).2]) i d

theorem fieldValues_of_frame {d d' : Document} (h : frame d' = frame d) :
    fieldValues d' = fieldValues d :=
  map_eq_of_frame (fun e : Element => (e.value, e.checked)) (fun _ => rfl) h

theorem fieldValues_removeClass (selector : List JSString) (c : JSString) (d : Document) :
    fieldValues (d.map (removeClassIfMatches selector c)) = fieldValues d := by
  simp only [fieldValues, List.map_map, Function.comp_def]
  refine List.map_congr_left fun e _ => ?_
  unfold removeClassIfMatches
  split <;> rfl

/-- What a reset reads of an element determines what it leaves in `value` and `checked`. -/
theorem fieldValues_reset_congr (c : Nat) :
    ∀ d d' : Document,
      d.map (fun e => (e.value, e.checked, e.defaultValue, e.defaultChecked, e.type, e.form)) =
        d'.map (fun e =>
          (e.value, e.checked, e.defaultValue, e.defaultChecked, e.type, e.form)) →
      fieldValues (d.map (resetControl c)) = fieldValues (d'.map (resetControl c))
  | [], [], _ => rfl
  | [], _ :: _, h => by simp at h
  | _ :: _, [], h => by simp at h
  | e :: es, e' :: es', h => by
    simp only [List.map_cons, List.cons.injEq, Prod.mk.injEq] at h
    obtain ⟨⟨hv, hc, hdv, hdc, ht, hf⟩, hes⟩ := h
    have ih := fieldValues_reset_congr c es es' hes
    simp only [fieldValues, List.map_cons, List.cons.injEq] at ih ⊢
    refine ⟨?_, ih⟩
    unfold resetControl
    rw [hf, ht, hdc, hdv]
    split_ifs <;> simp [hv, hc]

theorem removeClassIfMatches_of_not_mem (selector : List JSString) (c a : JSString)
    (e : Element) (ha : a ∈ selector) (h : a ∉ e.classList) :
    removeClassIfMatches selector c e = e := by
  unfold removeClassIfMatches
  rw [if_neg]
  intro hall
  exact h (by simpa using List.all_eq_true.mp hall a ha)

theorem controlDefaults_updateElem (f : Element → Element)
    (hf : ∀ e, ((f e).id, (f e).form, (f e).defaultValue, (f e).defaultChecked) =
      (e.id, e.form, e.defaultValue, e.defaultChecked)) (i : Nat) (d : Document) :
    controlDefaults (updateElem f i d) = controlDefaults d :=
  map_updateElem _ f hf i d

theorem controlDefaults_of_frame {d d' : Document} (h : frame d' = frame d) :
    controlDefaults d' = controlDefaults d :=
  map_eq_of_frame (fun e : Element => (e.id, e.form, e.defaultValue, e.defaultChecked))
    (fun _ => rfl) h

theorem controlDefaults_map (g : Element → Element)
    (hg : ∀ e, ((g e).id, (g e).form, (g e).defaultValue, (g e).defaultChecked) =
      (e.id, e.form, e.defaultValue, e.defaultChecked)) (d : Document) :
    controlDefaults (d.map g) = controlDefaults d := by
  simp only [controlDefaults, List.map_map, Function.comp_def, hg]

theorem controlDefaults_removeClass (selector : List JSString) (c : JSString) (d : Document) :
    controlDefaults (d.map (removeClassIfMatches selector c)) = controlDefaults d :=
  controlDefaults_map _ (fun e => by unfold removeClassIfMatches; split <;> rfl) d

theorem controlDefaults_reset (c : Nat) (d : Document) :
    controlDefaults (d.map (resetControl c)) = controlDefaults d :=
  controlDefaults_map _ (fun e => by unfold resetControl; split_ifs <;> rfl) d

theorem handleFormSubmit_valid_page (net : NetOutcome) (p : Page) (d' : Document) (b : Nat)
    (h : validateForm p.elems = (.ok true, d')) (hb : p.submitBtn = some b) :
    ∃ P : Page, handleFormSubmit net p =
        tryFinally (tryCatch (sendForm net) fun _ => reportFailure) (restoreButton b) P ∧
      P.elems = updateElem (fun e =>
        { e with disabled := true, textContent := lit "Enviando..." }) b d' ∧
      P.contactForm = p.contactForm ∧ P.formMessage = p.formMessage :=
  ⟨_, handleFormSubmit_of_valid net p d' b h hb, rfl, rfl, rfl⟩

/-- C6. When the form passes validation and the endpoint answers with `success: true`,
`handleFormSubmit` ends with the form reset: the `value` and `checked` of every element are
what `form.reset()` makes of the values the handler was called with, so every control of
the form has its default checkedness, every text control, text area and select has its
default value, and a checkbox keeps its `value`; no form group carries `error`, no
error-message element carries `show`, and the banner shows the server's message with type
success. -/
theorem successful_submission_resets_form (p : Page) (message : JSString) (c b k : Nat)
    (hvalid : (validateForm p.elems).1 = .ok true) (hform : p.contactForm = some c)
    (hbtn : p.submitBtn = some b) (hbanner : p.formMessage = some k)
    (hk : k < p.elems.length) (hbk : b ≠ k) :
    ∃ q banner, handleFormSubmit (.json ⟨true, message⟩) p = (.ok (), q) ∧
      controlDefaults q.elems = controlDefaults p.elems ∧
      fieldValues q.elems = fieldValues (p.elems.map (resetControl c)) ∧
      (∀ e ∈ q.elems, e.form = some c →
        e.checked = e.defaultChecked ∧
        (valueFollowsAttribute e.type = false → e.type ≠ lit "file" →
          e.value = e.defaultValue)) ∧
      (∀ e ∈ q.elems, lit "form-group" ∈ e.classList → lit "error" ∉ e.classList) ∧
      (∀ e ∈ q.elems, lit "error-message" ∈ e.classList → lit "show" ∉ e.classList) ∧
      q.elems[k]? = some banner ∧ banner.textContent = message ∧
      banner.classList = [lit "form-message", lit "success"] := by
  obtain ⟨d', hd', hf⟩ := validateForm_run hvalid
  have hlen : k < d'.length := by rw [length_eq_of_frame hf]; exact hk
  obtain ⟨P, hP, hPe, hPc, hPk⟩ := handleFormSubmit_valid_page _ p d' b hd' hbtn
  rw [hP, tryFinally_tryCatch_eq, sendForm_success message P c k (hPc.trans hform)
    (hPk.trans hbanner)]
  simp only [restoreButton_eq]
  have hkP : k < P.elems.length := by rw [hPe, length_updateElem]; exact hlen
  have hcl : ∀ e : Element, e.classList = [lit "form-message", lit "success"] →
      (removeClassIfMatches [lit "error-message"] (lit "show")
        (removeClassIfMatches [lit "form-group", lit "error"] (lit "error")
          (resetControl c e))) = resetControl c e := by
    intro e he
    have h₁ : removeClassIfMatches [lit "form-group", lit "error"] (lit "error")
        (resetControl c e) = resetControl c e :=
      removeClassIfMatches_of_not_mem _ _ (lit "form-group") _ (by decide)
        (by rw [(resetControl_fields c e).1, he]; decide)
    rw [h₁]
    exact removeClassIfMatches_of_not_mem _ _ (lit "error-message") _ (by decide)
      (by rw [(resetControl_fields c e).1, he]; decide)
  refine ⟨_, resetControl c { P.elems[k] with
      textContent := message
      classList := classTokens (lit "form-message " ++ lit "success") }, rfl, ?_, ?_, ?_, ?_, ?_,
    ?_, (resetControl_fields c _).2, (resetControl_fields c _).1.trans classTokens_success⟩
  · show controlDefaults (updateElem _ b _) = _
    refine Eq.trans (controlDefaults_updateElem _ ?_ b _) ?_
    · exact fun _ => rfl
    rw [controlDefaults_removeClass, controlDefaults_removeClass, controlDefaults_reset]
    refine Eq.trans (controlDefaults_updateElem _ ?_ k _) ?_
    · exact fun _ => rfl
    rw [hPe]
    refine Eq.trans (controlDefaults_updateElem _ ?_ b _) (controlDefaults_of_frame hf)
    exact fun _ => rfl
  · show fieldValues (updateElem _ b _) = _
    refine Eq.trans (fieldValues_updateElem _ ?_ b _) ?_
    · exact fun _ => ⟨rfl, rfl⟩
    rw [fieldValues_removeClass, fieldValues_removeClass]
    refine fieldValues_reset_congr c _ _ ?_
    refine Eq.trans (map_updateElem _ _ ?_ k _) ?_
    · exact fun _ => rfl
    rw [hPe]
    refine Eq.trans (map_updateElem _ _ ?_ b _) (map_eq_of_frame _ ?_ hf)
    · exact fun _ => rfl
    · exact fun _ => rfl
  · intro e he hform
    rcases mem_updateElem he with h | ⟨e', h, rfl⟩
    · exact ⟨(cleared_of_mem c _ e h).2.1 hform, (cleared_of_mem c _ e h).1 hform⟩
    · exact ⟨(cleared_of_mem c _ e' h).2.1 hform, (cleared_of_mem c _ e' h).1 hform⟩
  · intro e he
    rcases mem_updateElem he with h | ⟨e', h, rfl⟩
    · exact (cleared_of_mem c _ e h).2.2.1
    · exact (cleared_of_mem c _ e' h).2.2.1
  · intro e he
    rcases mem_updateElem he with h | ⟨e', h, rfl⟩
    · exact (cleared_of_mem c _ e h).2.2.2
    · exact (cleared_of_mem c _ e' h).2.2.2
  · show (updateElem _ b _)[k]? = _
    rw [getElem?_updateElem_ne _ hbk]
    simp only [List.getElem?_map, getElem?_updateElem_self, List.getElem?_eq_getElem hkP,
      Option.map_some']
    rw [hcl _ classTokens_success]

/-- C7. Whatever the network does (success, failure, rejection, unparsable body), once the
form has passed validation `handleFormSubmit` ends with the submit button enabled and
labelled 'Enviar'. -/
theorem submit_button_restored (p : Page) (net : NetOutcome) (b : Nat)
    (hvalid : (validateForm p.elems).1 = .ok true) (hbtn : p.submitBtn = some b)
    (hb : b < p.elems.length) :
    ∃ button, (handleFormSubmit net p).2.elems[b]? = some button ∧
      button.disabled = false ∧ button.textContent = lit "Enviar" := by
  obtain ⟨d', hd', hf⟩ := validateForm_run hvalid
  obtain ⟨P, hP, hPe, -, -⟩ := handleFormSubmit_valid_page net p d' b hd' hbtn
  have hlenP : P.elems.length = p.elems.length := by
    rw [hPe, length_updateElem, length_eq_of_frame hf]
  have hbody : (tryCatch (sendForm net) (fun _ => reportFailure) P).2.elems.length =
      p.elems.length :=
    (Keeps.tryCatch (keeps_length_sendForm net) (fun _ => keeps_length_reportFailure) P).trans
      hlenP
  rw [hP, tryFinally_tryCatch_state, restoreButton_eq]
  have hlt : b < (tryCatch (sendForm net) (fun _ => reportFailure) P).2.elems.length := by
    rw [hbody]; exact hb
  refine ⟨{ (tryCatch (sendForm net) (fun _ => reportFailure) P).2.elems[b] with
    disabled := false, textContent := lit "Enviar" }, ?_, rfl, rfl⟩
  show (updateElem _ b _)[b]? = _
  rw [getElem?_updateElem_self, List.getElem?_eq_getElem hlt]
  rfl

/-- C8. When the form has passed validation and the submission fails, `handleFormSubmit`
leaves the `value` and `checked` of every element as they were and shows an error banner:
the server's message for a response with `success: false`, the generic retry message for
a rejected request or an unparsable body. -/
theorem failed_submission_keeps_fields (p : Page) (net : NetOutcome) (c b k : Nat)
    (hvalid : (validateForm p.elems).1 = .ok true) (hform : p.contactForm = some c)
    (hbtn : p.submitBtn = some b) (hbanner : p.formMessage = some k)
    (hk : k < p.elems.length) (hbk : b ≠ k)
    (hfail : ∀ message, net ≠ .json ⟨true, message⟩) :
    ∃ q banner, handleFormSubmit net p = (.ok (), q) ∧
      fieldValues q.elems = fieldValues p.elems ∧
      q.elems[k]? = some banner ∧
      banner.classList = [lit "form-message", lit "error"] ∧
      banner.textContent = failureMessage net := by
  obtain ⟨d', hd', hf⟩ := validateForm_run hvalid
  obtain ⟨P, hP, hPe, hPc, hPk⟩ := handleFormSubmit_valid_page net p d' b hd' hbtn
  have hkP : k < P.elems.length := by
    rw [hPe, length_updateElem, length_eq_of_frame hf]; exact hk
  have hvals : fieldValues P.elems = fieldValues p.elems := by
    rw [hPe]
    refine Eq.trans (fieldValues_updateElem _ ?_ b d') (fieldValues_of_frame hf)
    exact fun _ => ⟨rfl, rfl⟩
  -- the page every failing path ends with: the banner written, then the button restored
  have key : ∀ (message : JSString) (Q : Page), Q.elems = P.elems →
      ∃ banner,
        fieldValues (updateElem Element.restored b
          (updateElem (Element.showing message (lit "error")) k Q.elems)) =
            fieldValues p.elems ∧
        (updateElem Element.restored b
          (updateElem (Element.showing message (lit "error")) k Q.elems))[k]? = some banner ∧
        banner.classList = [lit "form-message", lit "error"] ∧ banner.textContent = message := by
    intro message Q hQ
    refine ⟨Element.showing message (lit "error") P.elems[k], ?_, ?_, classTokens_error, rfl⟩
    · rw [hQ, ← hvals]
      refine Eq.trans (fieldValues_updateElem Element.restored ?_ b _)
        (fieldValues_updateElem (Element.showing message (lit "error")) ?_ k _)
      · exact fun _ => ⟨rfl, rfl⟩
      · exact fun _ => ⟨rfl, rfl⟩
    · rw [hQ, getElem?_updateElem_ne _ hbk, getElem?_updateElem_self,
        List.getElem?_eq_getElem hkP]
      rfl
  rw [hP, tryFinally_tryCatch_eq]
  cases net with
  | rejected =>
    obtain ⟨e, Q, hQ, hQe, hQk⟩ := sendForm_rejected P
    obtain ⟨banner, h₁, h₂, h₃, h₄⟩ := key retryMessage Q hQe
    simp only [hQ, reportFailure_eq, showMessage_run, hQk, hPk, hbanner, restoreButton_eq]
    exact ⟨_, banner, rfl, h₁, h₂, h₃, h₄⟩
  | invalidJson =>
    obtain ⟨e, Q, hQ, hQe, hQk⟩ := sendForm_invalidJson P
    obtain ⟨banner, h₁, h₂, h₃, h₄⟩ := key retryMessage Q hQe
    simp only [hQ, reportFailure_eq, showMessage_run, hQk, hPk, hbanner, restoreButton_eq]
    exact ⟨_, banner, rfl, h₁, h₂, h₃, h₄⟩
  | json data =>
    obtain ⟨success, message⟩ := data
    cases success with
    | true => exact absurd rfl (hfail message)
    | false =>
      obtain ⟨banner, h₁, h₂, h₃, h₄⟩ := key message P rfl
      simp only [sendForm_failure message P c (hPc.trans hform), showMessage_run, hPk, hbanner,
        restoreButton_eq]
      exact ⟨_, banner, rfl, h₁, h₂, h₃, h₄⟩

theorem successful_submission_resets_form_witness :
    ((validateForm (examplePage "Ana" "ana@hln.pe" "Tablero" "Necesito una cotización" true).elems).1 =
        .ok true ∧
      (examplePage "Ana" "ana@hln.pe" "Tablero" "Necesito una cotización" true).contactForm =
        some 0 ∧
      (examplePage "Ana" "ana@hln.pe" "Tablero" "Necesito una cotización" true).submitBtn =
        some 13 ∧
      (examplePage "Ana" "ana@hln.pe" "Tablero" "Necesito una cotización" true).formMessage =
        some 14 ∧
      14 < (examplePage "Ana" "ana@hln.pe" "Tablero" "Necesito una cotización" true).elems.length ∧
      13 ≠ 14) ∧
    ∃ q banner,
      handleFormSubmit (.json ⟨true, lit "Mensaje enviado"⟩)
          (examplePage "Ana" "ana@hln.pe" "Tablero" "Necesito una cotización" true) =
        (.ok (), q) ∧
      controlDefaults q.elems =
        controlDefaults
          (examplePage "Ana" "ana@hln.pe" "Tablero" "Necesito una cotización" true).elems ∧
      fieldValues q.elems =
        fieldValues
          ((examplePage "Ana" "ana@hln.pe" "Tablero" "Necesito una cotización" true).elems.map
            (resetControl 0)) ∧
      (∀ e ∈ q.elems, e.form = some 0 →
        e.checked = e.defaultChecked ∧
        (valueFollowsAttribute e.type = false → e.type ≠ lit "file" →
          e.value = e.defaultValue)) ∧
      (∀ e ∈ q.elems, lit "form-group" ∈ e.classList → lit "error" ∉ e.classList) ∧
      (∀ e ∈ q.elems, lit "error-message" ∈ e.classList → lit "show" ∉ e.classList) ∧
      q.elems[14]? = some banner ∧ banner.textContent = lit "Mensaje enviado" ∧
      banner.classList = [lit "form-message", lit "success"] :=
  ⟨⟨by decide, by decide, by decide, by decide, by decide, by decide⟩,
    successful_submission_resets_form _ (lit "Mensaje enviado") 0 13 14 (by decide) (by decide)
      (by decide) (by decide) (by decide) (by decide)⟩

theorem submit_button_restored_witness :
    ((validateForm (examplePage "Ana" "ana@hln.pe" "Tablero" "Necesito una cotización" true).elems).1 =
        .ok true ∧
      (examplePage "Ana" "ana@hln.pe" "Tablero" "Necesito una cotización" true).submitBtn =
        some 13 ∧
      13 < (examplePage "Ana" "ana@hln.pe" "Tablero" "Necesito una cotización" true).elems.length) ∧
    ∃ button,
      (handleFormSubmit .invalidJson
          (examplePage "Ana" "ana@hln.pe" "Tablero" "Necesito una cotización" true)).2.elems[13]? =
        some button ∧
      button.disabled = false ∧ button.textContent = lit "Enviar" :=
  ⟨⟨by decide, by decide, by decide⟩,
    submit_button_restored _ .invalidJson 13 (by decide) (by decide) (by decide)⟩

theorem failed_submission_keeps_fields_witness :
    ((validateForm (examplePage "Ana" "ana@hln.pe" "Tablero" "Necesito una cotización" true).elems).1 =
        .ok true ∧
      (examplePage "Ana" "ana@hln.pe" "Tablero" "Necesito una cotización" true).contactForm =
        some 0 ∧
      (examplePage "Ana" "ana@hln.pe" "Tablero" "Necesito una cotización" true).submitBtn =
        some 13 ∧
      (examplePage "Ana" "ana@hln.pe" "Tablero" "Necesito una cotización" true).formMessage =
        some 14 ∧
      14 < (examplePage "Ana" "ana@hln.pe" "Tablero" "Necesito una cotización" true).elems.length ∧
      13 ≠ 14 ∧
      ∀ message, NetOutcome.json ⟨false, lit "Correo rechazado"⟩ ≠ .json ⟨true, message⟩) ∧
    ∃ q banner,
      handleFormSubmit (.json ⟨false, lit "Correo rechazado"⟩)
          (examplePage "Ana" "ana@hln.pe" "Tablero" "Necesito una cotización" true) =
        (.ok (), q) ∧
      fieldValues q.elems =
        fieldValues (examplePage "Ana" "ana@hln.pe" "Tablero" "Necesito una cotización" true).elems ∧
      q.elems[14]? = some banner ∧
      banner.classList = [lit "form-message", lit "error"] ∧
      banner.textContent = failureMessage (.json ⟨false, lit "Correo rechazado"⟩) :=
  ⟨⟨by decide, by decide, by decide, by decide, by decide, by decide,
      fun _ h => by cases h⟩,
    failed_submission_keeps_fields _ (.json ⟨false, lit "Correo rechazado"⟩) 0 13 14 (by decide)
      (by decide) (by decide) (by decide) (by decide) (by decide) (fun _ h => by cases h)⟩

/-! ## Looping strips -/

theorem notInited_duplicate (m : Markup) (track : Track) :
    (track.duplicate m).notInited = false := by
  unfold Track.duplicate
  split
  · rfl
  · rename_i h; simpa using h

theorem duplicate_of_notInited (m : Markup) {track : Track} (h : track.notInited = true) :
    (track.duplicate m).items =
      m.parse (m.serialize track.items ++ m.serialize track.items) := by
  simp [Track.duplicate, Track.setInnerHTML, Track.innerHTML, h]

theorem duplicate_of_inited (m : Markup) {track : Track} (h : track.notInited = false) :
    track.duplicate m = track := by
  simp [Track.duplicate, h]

theorem initClientsCarousel_track (m : Markup) (sw : List JSString → Nat) (w : StripPage) :
    ∃ f : Track → Track, (∀ t, (f t).items = t.items ∧ (f t).notInited = t.notInited) ∧
      (initClientsCarousel m sw w).clientsTrack =
        w.clientsTrack.map (fun t => f (t.duplicate m)) ∧
      (initClientsCarousel m sw w).providersTrack = w.providersTrack := by
  refine ⟨fun t => { (t.measure (lit "--scroll-distance") (lit "--scroll-duration") 5 200 sw) with
    resizeHandler := some w.nextClosure }, fun t => ⟨rfl, rfl⟩, ?_⟩
  unfold initClientsCarousel
  cases h : w.clientsTrack with
  | none => simp [h]
  | some t => exact ⟨rfl, rfl⟩

theorem initProvidersCarousel_track (m : Markup) (sw : List JSString → Nat) (w : StripPage) :
    ∃ f : Track → Track, (∀ t, (f t).items = t.items ∧ (f t).notInited = t.notInited) ∧
      (initProvidersCarousel m sw w).providersTrack =
        w.providersTrack.map (fun t => f (t.duplicate m)) ∧
      (initProvidersCarousel m sw w).clientsTrack = w.clientsTrack := by
  refine ⟨fun t => { (t.measure (lit "--providers-distance") (lit "--providers-duration") 10 150
    sw) with resizeHandler := some w.nextClosure }, fun t => ⟨rfl, rfl⟩, ?_⟩
  unfold initProvidersCarousel
  cases h : w.providersTrack with
  | none => simp [h]
  | some t => exact ⟨rfl, rfl⟩

/-- Two guarded duplications, with anything in between that keeps items and marker, leave
the items of one. -/
theorem items_duplicate_twice (m : Markup) (f g : Track → Track)
    (hf : ∀ t, (f t).items = t.items ∧ (f t).notInited = t.notInited)
    (hg : ∀ t, (g t).items = t.items ∧ (g t).notInited = t.notInited) (t : Track) :
    (g ((f (t.duplicate m)).duplicate m)).items = (t.duplicate m).items := by
  have h : (f (t.duplicate m)).notInited = false := (hf _).2.trans (notInited_duplicate m t)
  rw [(hg _).1, duplicate_of_inited m h, (hf _).1]

/-- What two calls of an init routine leave in its track. -/
theorem initClientsCarousel_twice (m : Markup) (sw₁ sw₂ : List JSString → Nat) (w : StripPage) :
    trackItems (initClientsCarousel m sw₂ (initClientsCarousel m sw₁ w)).clientsTrack =
        w.clientsTrack.map (fun t => (t.duplicate m).items) ∧
      trackItems (initClientsCarousel m sw₁ w).clientsTrack =
        w.clientsTrack.map (fun t => (t.duplicate m).items) := by
  obtain ⟨f₁, hf₁, h₁, -⟩ := initClientsCarousel_track m sw₁ w
  obtain ⟨f₂, hf₂, h₂, -⟩ := initClientsCarousel_track m sw₂ (initClientsCarousel m sw₁ w)
  rw [h₂, h₁]
  cases w.clientsTrack with
  | none => exact ⟨rfl, rfl⟩
  | some t =>
    exact ⟨congrArg some (items_duplicate_twice m f₁ f₂ hf₁ hf₂ t), congrArg some (hf₁ _).1⟩

theorem initProvidersCarousel_twice (m : Markup) (sw₁ sw₂ : List JSString → Nat)
    (w : StripPage) :
    trackItems (initProvidersCarousel m sw₂ (initProvidersCarousel m sw₁ w)).providersTrack =
        w.providersTrack.map (fun t => (t.duplicate m).items) ∧
      trackItems (initProvidersCarousel m sw₁ w).providersTrack =
        w.providersTrack.map (fun t => (t.duplicate m).items) := by
  obtain ⟨g₁, hg₁, k₁, -⟩ := initProvidersCarousel_track m sw₁ w
  obtain ⟨g₂, hg₂, k₂, -⟩ := initProvidersCarousel_track m sw₂ (initProvidersCarousel m sw₁ w)
  rw [k₂, k₁]
  cases w.providersTrack with
  | none => exact ⟨rfl, rfl⟩
  | some t =>
    exact ⟨congrArg some (items_duplicate_twice m g₁ g₂ hg₁ hg₂ t), congrArg some (hg₁ _).1⟩

/-- C9, as stated, fails: a track that already carries `data-inited` is never duplicated,
so with one item it holds one item after two calls, not two; and this is so whatever the
browser's parser does. -/
theorem carousel_duplication_every_track_refuted :
    ¬ ∃ m : Markup, ∀ (sw₁ sw₂ : List JSString → Nat) (w : StripPage) (track : Track),
        w.clientsTrack = some track →
          trackItems (initClientsCarousel m sw₂ (initClientsCarousel m sw₁ w)).clientsTrack =
            some (track.items ++ track.items) := by
  rintro ⟨m, h⟩
  have h₁ := h (fun _ => 0) (fun _ => 0)
    { clientsTrack := some { items := [lit "<div>ACME</div>"], inited := some (lit "1") } }
    { items := [lit "<div>ACME</div>"], inited := some (lit "1") } rfl
  rw [(initClientsCarousel_twice m _ _ _).1] at h₁
  revert h₁
  simp [Track.duplicate, Track.notInited, lit, utf16]

/-- C9, amended. Calling `initClientsCarousel` twice leaves the track with the items one
call leaves, and likewise `initProvidersCarousel`, for every track. On a track of N items
that is not yet marked as initialised and whose markup, written twice, parses back to its
items twice, that content is the original sequence followed by one copy of it: 2N items,
which for N ≥ 1 is neither 3N nor 4N. -/
theorem carousel_duplication_idempotent (m : Markup) (sw₁ sw₂ : List JSString → Nat)
    (w : StripPage) :
    (trackItems (initClientsCarousel m sw₂ (initClientsCarousel m sw₁ w)).clientsTrack =
        trackItems (initClientsCarousel m sw₁ w).clientsTrack ∧
      trackItems (initProvidersCarousel m sw₂ (initProvidersCarousel m sw₁ w)).providersTrack =
        trackItems (initProvidersCarousel m sw₁ w).providersTrack) ∧
    (∀ track, w.clientsTrack = some track → track.notInited = true →
      m.parse (m.serialize track.items ++ m.serialize track.items) =
        track.items ++ track.items →
      ∃ items,
        trackItems (initClientsCarousel m sw₂ (initClientsCarousel m sw₁ w)).clientsTrack =
          some items ∧
        items = track.items ++ track.items ∧ items.length = 2 * track.items.length ∧
        (0 < track.items.length → items.length ≠ 3 * track.items.length ∧
          items.length ≠ 4 * track.items.length)) ∧
    (∀ track, w.providersTrack = some track → track.notInited = true →
      m.parse (m.serialize track.items ++ m.serialize track.items) =
        track.items ++ track.items →
      ∃ items,
        trackItems
            (initProvidersCarousel m sw₂ (initProvidersCarousel m sw₁ w)).providersTrack =
          some items ∧
        items = track.items ++ track.items ∧ items.length = 2 * track.items.length ∧
        (0 < track.items.length → items.length ≠ 3 * track.items.length ∧
          items.length ≠ 4 * track.items.length)) := by
  obtain ⟨hc, hc₁⟩ := initClientsCarousel_twice m sw₁ sw₂ w
  obtain ⟨hp, hp₁⟩ := initProvidersCarousel_twice m sw₁ sw₂ w
  refine ⟨⟨hc.trans hc₁.symm, hp.trans hp₁.symm⟩, ?_, ?_⟩
  · intro track htrack hfresh hparse
    refine ⟨track.items ++ track.items, ?_, rfl, ?_, ?_⟩
    · rw [hc, htrack]
      exact congrArg some ((duplicate_of_notInited m hfresh).trans hparse)
    · rw [List.length_append]; omega
    · intro hpos
      rw [List.length_append]
      constructor <;> omega
  · intro track htrack hfresh hparse
    refine ⟨track.items ++ track.items, ?_, rfl, ?_, ?_⟩
    · rw [hp, htrack]
      exact congrArg some ((duplicate_of_notInited m hfresh).trans hparse)
    · rw [List.length_append]; omega
    · intro hpos
      rw [List.length_append]
      constructor <;> omega

theorem carousel_duplication_idempotent_witness :
    (({ clientsTrack := some { items := [lit "<div>ACME</div>", lit "<div>HLN</div>"] } } :
        StripPage).clientsTrack = some { items := [lit "<div>ACME</div>", lit "<div>HLN</div>"] } ∧
      ({ items := [lit "<div>ACME</div>", lit "<div>HLN</div>"] } : Track).notInited = true ∧
      Markup.flatDivs.parse
          (Markup.flatDivs.serialize
              ({ items := [lit "<div>ACME</div>", lit "<div>HLN</div>"] } : Track).items ++
            Markup.flatDivs.serialize
              ({ items := [lit "<div>ACME</div>", lit "<div>HLN</div>"] } : Track).items) =
        ({ items := [lit "<div>ACME</div>", lit "<div>HLN</div>"] } : Track).items ++
          ({ items := [lit "<div>ACME</div>", lit "<div>HLN</div>"] } : Track).items) ∧
    ∃ items,
      trackItems (initClientsCarousel Markup.flatDivs (fun l => 300 * l.length)
        (initClientsCarousel Markup.flatDivs (fun l => 240 * l.length)
          { clientsTrack := some { items := [lit "<div>ACME</div>", lit "<div>HLN</div>"] } })).clientsTrack =
        some items ∧
      items = ({ items := [lit "<div>ACME</div>", lit "<div>HLN</div>"] } : Track).items ++
        ({ items := [lit "<div>ACME</div>", lit "<div>HLN</div>"] } : Track).items ∧
      items.length =
        2 * ({ items := [lit "<div>ACME</div>", lit "<div>HLN</div>"] } : Track).items.length ∧
      (0 < ({ items := [lit "<div>ACME</div>", lit "<div>HLN</div>"] } : Track).items.length →
        items.length ≠
            3 * ({ items := [lit "<div>ACME</div>", lit "<div>HLN</div>"] } : Track).items.length ∧
          items.length ≠
            4 * ({ items := [lit "<div>ACME</div>", lit "<div>HLN</div>"] } : Track).items.length) :=
  ⟨⟨rfl, rfl, by decide⟩,
    (carousel_duplication_idempotent Markup.flatDivs (fun l => 240 * l.length)
      (fun l => 300 * l.length)
      { clientsTrack := some { items := [lit "<div>ACME</div>", lit "<div>HLN</div>"] } }).2.1
      { items := [lit "<div>ACME</div>", lit "<div>HLN</div>"] } rfl rfl (by decide)⟩

/-! ## Video slides -/

theorem showSlide_ok (slides : List (List JSString)) (index : Int) (h₀ : 0 ≤ index)
    (h₁ : index < slides.length) :
    ∃ slides', showSlide slides index = .ok slides' ∧ slides'.length = slides.length := by
  refine ⟨(slides.map (classRemove (lit "active"))).modify (classAdd (lit "active"))
    index.toNat, ?_, ?_⟩
  · unfold showSlide
    simp only [List.length_map]
    rw [if_pos ⟨h₀, h₁⟩]
  · simp

theorem nextSlide_index (c : VideoCarousel) (i : Int) (h₀ : 0 ≤ i) (h₁ : i < c.slides.length)
    (hi : (c.currentIndex + 1).tmod c.slides.length = i) :
    ∃ c', nextSlide c = .ok c' ∧ c'.currentIndex = i ∧ c'.slides.length = c.slides.length := by
  obtain ⟨s, hs, hlen⟩ := showSlide_ok c.slides i h₀ h₁
  refine ⟨{ slides := s, currentIndex := i }, ?_, rfl, hlen⟩
  simp only [nextSlide, hi, hs, bind, Except.bind, pure, Except.pure]

theorem prevSlide_index (c : VideoCarousel) (i : Int) (h₀ : 0 ≤ i) (h₁ : i < c.slides.length)
    (hi : (c.currentIndex - 1 + c.slides.length).tmod c.slides.length = i) :
    ∃ c', prevSlide c = .ok c' ∧ c'.currentIndex = i ∧ c'.slides.length = c.slides.length := by
  obtain ⟨s, hs, hlen⟩ := showSlide_ok c.slides i h₀ h₁
  refine ⟨{ slides := s, currentIndex := i }, ?_, rfl, hlen⟩
  simp only [prevSlide, hi, hs, bind, Except.bind, pure, Except.pure]

/-- C10. For a video carousel with n ≥ 1 slides: initialisation leaves the current index
at 0; `nextSlide` from n-1 goes to 0 and `prevSlide` from 0 goes to n-1; from any other
index of the sequence `nextSlide` adds 1 and `prevSlide` subtracts 1. -/
theorem video_navigation_wraps :
    (∀ doc : VideoDocument, 1 ≤ doc.slides.length → doc.prevBtn = true → doc.nextBtn = true →
      ∃ c, initVideoCarousel doc = .ok (some c) ∧ c.currentIndex = 0 ∧
        c.slides.length = doc.slides.length) ∧
    (∀ c : VideoCarousel, 1 ≤ c.slides.length →
      (c.currentIndex = (c.slides.length : Int) - 1 →
        ∃ c', nextSlide c = .ok c' ∧ c'.currentIndex = 0 ∧
          c'.slides.length = c.slides.length) ∧
      (c.currentIndex = 0 →
        ∃ c', prevSlide c = .ok c' ∧ c'.currentIndex = (c.slides.length : Int) - 1 ∧
          c'.slides.length = c.slides.length) ∧
      (0 ≤ c.currentIndex → c.currentIndex < (c.slides.length : Int) - 1 →
        ∃ c', nextSlide c = .ok c' ∧ c'.currentIndex = c.currentIndex + 1 ∧
          c'.slides.length = c.slides.length) ∧
      (0 < c.currentIndex → c.currentIndex ≤ (c.slides.length : Int) - 1 →
        ∃ c', prevSlide c = .ok c' ∧ c'.currentIndex = c.currentIndex - 1 ∧
          c'.slides.length = c.slides.length)) := by
  refine ⟨?_, ?_⟩
  · intro doc hn hprev hnext
    have hne : doc.slides.isEmpty = false := by
      cases hs : doc.slides with
      | nil => rw [hs] at hn; simp at hn
      | cons _ _ => rfl
    obtain ⟨s, hs, hlen⟩ := showSlide_ok doc.slides 0 (Int.le_refl 0) (by omega)
    refine ⟨{ slides := s, currentIndex := 0 }, ?_, rfl, hlen⟩
    simp [initVideoCarousel, hne, hprev, hnext, hs, bind, Except.bind, pure, Except.pure]
  · intro c hn
    have hpos : (0 : Int) < c.slides.length := by omega
    refine ⟨?_, ?_, ?_, ?_⟩
    · intro hi
      refine nextSlide_index c 0 (Int.le_refl 0) hpos ?_
      rw [hi, Int.sub_add_cancel, Int.tmod_self]
    · intro hi
      refine prevSlide_index c _ (by omega) (by omega) ?_
      rw [hi, Int.tmod_eq_emod (by omega) (by omega)]
      exact Int.emod_eq_of_lt (by omega) (by omega)
    · intro h₀ h₁
      refine nextSlide_index c _ (by omega) (by omega) ?_
      rw [Int.tmod_eq_emod (by omega) (by omega)]
      exact Int.emod_eq_of_lt (by omega) (by omega)
    · intro h₀ h₁
      refine prevSlide_index c _ (by omega) (by omega) ?_
      rw [Int.tmod_eq_emod (by omega) (by omega),
        show c.currentIndex - 1 + (c.slides.length : Int) =
          c.currentIndex - 1 + (c.slides.length : Int) * 1 by omega,
        Int.add_mul_emod_self_left]
      exact Int.emod_eq_of_lt (by omega) (by omega)

theorem video_navigation_wraps_witness :
    (1 ≤ ({ slides := [[lit "video-slide"], [lit "video-slide", lit "active"]],
            currentIndex := 1 } : VideoCarousel).slides.length ∧
      ({ slides := [[lit "video-slide"], [lit "video-slide", lit "active"]],
         currentIndex := 1 } : VideoCarousel).currentIndex =
        (({ slides := [[lit "video-slide"], [lit "video-slide", lit "active"]],
            currentIndex := 1 } : VideoCarousel).slides.length : Int) - 1) ∧
    ∃ c', nextSlide { slides := [[lit "video-slide"], [lit "video-slide", lit "active"]],
                      currentIndex := 1 } = .ok c' ∧
      c'.currentIndex = 0 ∧
      c'.slides.length =
        ({ slides := [[lit "video-slide"], [lit "video-slide", lit "active"]],
           currentIndex := 1 } : VideoCarousel).slides.length :=
  ⟨⟨by decide, by decide⟩,
    (video_navigation_wraps.2
      { slides := [[lit "video-slide"], [lit "video-slide", lit "active"]], currentIndex := 1 }
      (by decide)).1 (by decide)⟩

/-! ## Statistics counter -/

theorem roundHalfEven_near (q : ℚ) :
    (roundHalfEven q : ℚ) - 1 / 2 ≤ q ∧ q ≤ (roundHalfEven q : ℚ) + 1 / 2 := by
  have h₁ := Int.floor_le q
  have h₂ := Int.lt_floor_add_one q
  unfold roundHalfEven
  split_ifs <;> push_cast <;> constructor <;> linarith

theorem roundHalfEven_eq {q : ℚ} {n : Int} (h₁ : (n : ℚ) - 1 / 2 < q) (h₂ : q < (n : ℚ) + 1 / 2) :
    roundHalfEven q = n := by
  obtain ⟨h₃, h₄⟩ := roundHalfEven_near q
  have h₅ : ((roundHalfEven q : Int) : ℚ) < ((n + 1 : Int) : ℚ) := by push_cast; linarith
  have h₆ : ((n - 1 : Int) : ℚ) < ((roundHalfEven q : Int) : ℚ) := by push_cast; linarith
  have h₇ := Int.cast_lt.mp h₅
  have h₈ := Int.cast_lt.mp h₆
  omega

theorem roundHalfEven_intCast (n : Int) : roundHalfEven (n : ℚ) = n :=
  roundHalfEven_eq (by linarith) (by linarith)

theorem roundHalfEven_mono : Monotone roundHalfEven := by
  intro x y hxy
  by_contra hlt
  have hlt : roundHalfEven y + 1 ≤ roundHalfEven x := by omega
  have hq : ((roundHalfEven y + 1 : Int) : ℚ) ≤ ((roundHalfEven x : Int) : ℚ) :=
    Int.cast_le.mpr hlt
  push_cast at hq
  have hx := (roundHalfEven_near x).1
  have hy := (roundHalfEven_near y).2
  have hxy' : x = y := le_antisymm hxy (by linarith)
  rw [hxy'] at hlt
  omega

theorem two_zpow_pos (e : Int) : (0 : ℚ) < 2 ^ e := zpow_pos (by norm_num) e

theorem abs_lt_ulp (x : ℚ) : |x| < 2 ^ (ulpExponent x + 53) := by
  have h := Int.lt_zpow_succ_log_self (one_lt_two : 1 < 2) |x|
  rw [Nat.cast_ofNat] at h
  refine lt_of_lt_of_le h (zpow_le_zpow_right₀ (by norm_num) ?_)
  have := le_max_left (Int.log 2 |x| - 52) (-1074)
  unfold ulpExponent
  omega

theorem ulp_le_abs {x : ℚ} (hx : x ≠ 0) (h : -1074 < ulpExponent x) :
    2 ^ (ulpExponent x + 52) ≤ |x| := by
  have h₁ := Int.zpow_log_le_self (one_lt_two : 1 < 2) (abs_pos.mpr hx)
  rw [Nat.cast_ofNat] at h₁
  refine le_trans (zpow_le_zpow_right₀ (by norm_num) ?_) h₁
  unfold ulpExponent at h ⊢
  rcases max_cases (Int.log 2 |x| - 52) (-1074) with ⟨h₂, _⟩ | ⟨h₂, _⟩ <;> omega

theorem ulpExponent_mono {x y : ℚ} (hx : x ≠ 0) (h : |x| ≤ |y|) :
    ulpExponent x ≤ ulpExponent y := by
  unfold ulpExponent
  have := Int.log_mono_right (b := 2) (abs_pos.mpr hx) h
  exact max_le_max (by omega) (le_refl _)

theorem ulpExponent_of_bounds {x : ℚ} {e : Int} (he : -1074 ≤ e)
    (h₁ : 2 ^ (e + 52) ≤ |x|) (h₂ : |x| < 2 ^ (e + 53)) : ulpExponent x = e := by
  have hpos : 0 < |x| := lt_of_lt_of_le (two_zpow_pos _) h₁
  have h₃ : e + 52 ≤ Int.log 2 |x| :=
    (Int.zpow_le_iff_le_log (one_lt_two : 1 < 2) hpos).mp (by rwa [Nat.cast_ofNat])
  have h₄ : Int.log 2 |x| < e + 53 :=
    (Int.lt_zpow_iff_log_lt (one_lt_two : 1 < 2) hpos).mp (by rwa [Nat.cast_ofNat])
  unfold ulpExponent
  rw [max_eq_left (by omega)]
  omega

theorem roundToDouble_of_bounds {x : ℚ} (e : Int) (he : -1074 ≤ e)
    (h₁ : 2 ^ (e + 52) ≤ |x|) (h₂ : |x| < 2 ^ (e + 53)) :
    roundToDouble x = roundHalfEven (x / 2 ^ e) * 2 ^ e := by
  unfold roundToDouble
  rw [ulpExponent_of_bounds he h₁ h₂]

theorem roundToDouble_zero : roundToDouble 0 = 0 := by
  unfold roundToDouble
  rw [zero_div, show roundHalfEven 0 = 0 from roundHalfEven_intCast 0]
  simp

theorem roundToDouble_nonneg {x : ℚ} (hx : 0 ≤ x) : 0 ≤ roundToDouble x := by
  unfold roundToDouble
  refine mul_nonneg ?_ (two_zpow_pos _).le
  have : roundHalfEven 0 ≤ roundHalfEven (x / 2 ^ ulpExponent x) :=
    roundHalfEven_mono (div_nonneg hx (two_zpow_pos _).le)
  rw [show roundHalfEven 0 = 0 from roundHalfEven_intCast 0] at this
  exact_mod_cast this

theorem roundToDouble_nonpos {x : ℚ} (hx : x ≤ 0) : roundToDouble x ≤ 0 := by
  unfold roundToDouble
  refine mul_nonpos_of_nonpos_of_nonneg ?_ (two_zpow_pos _).le
  have : roundHalfEven (x / 2 ^ ulpExponent x) ≤ roundHalfEven 0 :=
    roundHalfEven_mono (div_nonpos_of_nonpos_of_nonneg hx (two_zpow_pos _).le)
  rw [show roundHalfEven 0 = 0 from roundHalfEven_intCast 0] at this
  exact_mod_cast this


theorem two_zpow_add (a b : Int) : (2 : ℚ) ^ (a + b) = 2 ^ a * 2 ^ b :=
  zpow_add₀ (by norm_num) a b

theorem roundHalfEven_le {q : ℚ} {n : Int} (h : q ≤ n) : roundHalfEven q ≤ n := by
  have := roundHalfEven_mono h
  rwa [roundHalfEven_intCast] at this

theorem le_roundHalfEven {q : ℚ} {n : Int} (h : (n : ℚ) ≤ q) : n ≤ roundHalfEven q := by
  have := roundHalfEven_mono h
  rwa [roundHalfEven_intCast] at this

/-- The rounded value stays within the binade bound of its argument. -/
theorem abs_roundToDouble_le (x : ℚ) : |roundToDouble x| ≤ 2 ^ (ulpExponent x + 53) := by
  have hE := two_zpow_pos (ulpExponent x)
  have h := abs_lt_ulp x
  rw [two_zpow_add, mul_comm] at h ⊢
  obtain ⟨h₁, h₂⟩ := abs_lt.mp h
  have h53 : ((2 : ℚ) ^ (53 : Int)) = ((9007199254740992 : Int) : ℚ) := by norm_num
  rw [h53] at h₁ h₂ ⊢
  have hu : roundHalfEven (x / 2 ^ ulpExponent x) ≤ 9007199254740992 :=
    roundHalfEven_le (by rw [div_le_iff₀ hE]; linarith)
  have hl : -9007199254740992 ≤ roundHalfEven (x / 2 ^ ulpExponent x) :=
    le_roundHalfEven (by rw [le_div_iff₀ hE]; push_cast at h₁ ⊢; linarith)
  have hu' : (roundHalfEven (x / 2 ^ ulpExponent x) : ℚ) ≤ ((9007199254740992 : Int) : ℚ) :=
    Int.cast_le.mpr hu
  have hl' : ((-9007199254740992 : Int) : ℚ) ≤ (roundHalfEven (x / 2 ^ ulpExponent x) : ℚ) :=
    Int.cast_le.mpr hl
  unfold roundToDouble
  rw [abs_le]
  push_cast at hl' hu' ⊢
  constructor <;> nlinarith

/-- Above the subnormal range a positive value rounds to at least the start of its
binade. -/
theorem le_roundToDouble_of_pos {x : ℚ} (hx : 0 < x) (h : -1074 < ulpExponent x) :
    2 ^ (ulpExponent x + 52) ≤ roundToDouble x := by
  have hE := two_zpow_pos (ulpExponent x)
  have h₁ := ulp_le_abs hx.ne' h
  rw [abs_of_pos hx] at h₁
  rw [two_zpow_add, mul_comm] at h₁ ⊢
  have h52 : ((2 : ℚ) ^ (52 : Int)) = ((4503599627370496 : Int) : ℚ) := by norm_num
  rw [h52] at h₁ ⊢
  have hl : 4503599627370496 ≤ roundHalfEven (x / 2 ^ ulpExponent x) :=
    le_roundHalfEven (by rw [le_div_iff₀ hE]; linarith)
  unfold roundToDouble
  exact mul_le_mul_of_nonneg_right (Int.cast_le.mpr hl) hE.le

theorem roundToDouble_le_of_neg {x : ℚ} (hx : x < 0) (h : -1074 < ulpExponent x) :
    roundToDouble x ≤ -2 ^ (ulpExponent x + 52) := by
  have hE := two_zpow_pos (ulpExponent x)
  have h₁ := ulp_le_abs hx.ne h
  rw [abs_of_neg hx] at h₁
  rw [two_zpow_add, mul_comm] at h₁ ⊢
  have h52 : ((2 : ℚ) ^ (52 : Int)) = ((4503599627370496 : Int) : ℚ) := by norm_num
  rw [h52] at h₁ ⊢
  have hl : roundHalfEven (x / 2 ^ ulpExponent x) ≤ -4503599627370496 :=
    roundHalfEven_le (by rw [div_le_iff₀ hE]; push_cast at h₁ ⊢; linarith)
  unfold roundToDouble
  have := mul_le_mul_of_nonneg_right
    (Int.cast_le.mpr hl : (roundHalfEven (x / 2 ^ ulpExponent x) : ℚ) ≤ _) hE.le
  push_cast at this ⊢
  linarith

theorem roundToDouble_mono_of_same {x y : ℚ} (h : x ≤ y) (he : ulpExponent x = ulpExponent y) :
    roundToDouble x ≤ roundToDouble y := by
  unfold roundToDouble
  rw [he]
  exact mul_le_mul_of_nonneg_right
    (Int.cast_le.mpr (roundHalfEven_mono (div_le_div_of_nonneg_right h (two_zpow_pos _).le)))
    (two_zpow_pos _).le

theorem ulpExponent_ge (x : ℚ) : -1074 ≤ ulpExponent x := le_max_right _ _

/-- Rounding to double precision is monotone. -/
theorem roundToDouble_mono : Monotone roundToDouble := by
  intro x y hxy
  by_cases hx : 0 < x
  · have hy : 0 < y := lt_of_lt_of_le hx hxy
    have hE : ulpExponent x ≤ ulpExponent y :=
      ulpExponent_mono hx.ne' (by rwa [abs_of_pos hx, abs_of_pos hy])
    rcases hE.eq_or_lt with he | hlt
    · exact roundToDouble_mono_of_same hxy he
    · calc roundToDouble x ≤ |roundToDouble x| := le_abs_self _
        _ ≤ 2 ^ (ulpExponent x + 53) := abs_roundToDouble_le x
        _ ≤ 2 ^ (ulpExponent y + 52) := zpow_le_zpow_right₀ (by norm_num) (by omega)
        _ ≤ roundToDouble y :=
          le_roundToDouble_of_pos hy (lt_of_le_of_lt (ulpExponent_ge x) hlt)
  · by_cases hy : y < 0
    · have hx' : x < 0 := lt_of_le_of_lt hxy hy
      have hE : ulpExponent y ≤ ulpExponent x :=
        ulpExponent_mono hy.ne (by rw [abs_of_neg hx', abs_of_neg hy]; linarith)
      rcases hE.eq_or_lt with he | hlt
      · exact roundToDouble_mono_of_same hxy he.symm
      · calc roundToDouble x ≤ -2 ^ (ulpExponent x + 52) :=
            roundToDouble_le_of_neg hx' (lt_of_le_of_lt (ulpExponent_ge y) hlt)
          _ ≤ -2 ^ (ulpExponent y + 53) :=
            neg_le_neg (zpow_le_zpow_right₀ (by norm_num) (by omega))
          _ ≤ -|roundToDouble y| := neg_le_neg (abs_roundToDouble_le y)
          _ ≤ roundToDouble y := neg_abs_le _
    · exact le_trans (roundToDouble_nonpos (not_lt.mp hx)) (roundToDouble_nonneg (not_lt.mp hy))

/-- A value with a significand below 2^53 and an exponent in range is a double. -/
theorem roundToDouble_of_representable (m e : Int) (hm : |m| < 9007199254740992)
    (he : -1074 ≤ e) : roundToDouble ((m : ℚ) * 2 ^ e) = (m : ℚ) * 2 ^ e := by
  by_cases h0 : m = 0
  · rw [h0, Int.cast_zero, zero_mul, roundToDouble_zero]
  have hx : (m : ℚ) * 2 ^ e ≠ 0 := mul_ne_zero (Int.cast_ne_zero.mpr h0) (two_zpow_pos e).ne'
  have hE : ulpExponent ((m : ℚ) * 2 ^ e) ≤ e := by
    by_contra hlt
    have hlt : e < ulpExponent ((m : ℚ) * 2 ^ e) := not_le.mp hlt
    have h₁ := ulp_le_abs hx (by omega)
    rw [abs_mul, abs_of_pos (two_zpow_pos e)] at h₁
    have h₂ : (2 : ℚ) ^ (e + 53) ≤ 2 ^ (ulpExponent ((m : ℚ) * 2 ^ e) + 52) :=
      zpow_le_zpow_right₀ (by norm_num) (by omega)
    rw [two_zpow_add, mul_comm] at h₂
    have h₃ : |(m : ℚ)| < 9007199254740992 := by
      rw [← Int.cast_abs]; exact_mod_cast hm
    have h53 : ((2 : ℚ) ^ (53 : Int)) = 9007199254740992 := by norm_num
    rw [h53] at h₂
    have := two_zpow_pos e
    nlinarith
  obtain ⟨k, hk⟩ := Int.le.dest hE
  have hsplit : (2 : ℚ) ^ e = 2 ^ (k : Int) * 2 ^ ulpExponent ((m : ℚ) * 2 ^ e) := by
    rw [← two_zpow_add, add_comm, hk]
  unfold roundToDouble
  have hdiv : (m : ℚ) * 2 ^ e / 2 ^ ulpExponent ((m : ℚ) * 2 ^ e) = ((m * 2 ^ k : Int) : ℚ) := by
    rw [div_eq_iff (two_zpow_pos _).ne']
    conv_lhs => rw [hsplit]
    push_cast
    rw [zpow_natCast]
    ring
  rw [hdiv, roundHalfEven_intCast]
  conv_rhs => rw [hsplit]
  push_cast
  rw [zpow_natCast]
  ring

theorem roundToDouble_intCast (n : Int) (h : |n| < 9007199254740992) :
    roundToDouble (n : ℚ) = n := by
  have := roundToDouble_of_representable n 0 h (by norm_num)
  simpa using this

theorem roundToDouble_one : roundToDouble 1 = 1 := by
  have := roundToDouble_intCast 1 (by norm_num)
  simpa using this


/-- The double a value rounds to, from the binade of the value and the integer nearest to
its significand. -/
theorem roundToDouble_eval {x : ℚ} (e n : Int) (he : -1074 ≤ e)
    (h₁ : 2 ^ (e + 52) ≤ |x|) (h₂ : |x| < 2 ^ (e + 53))
    (h₃ : (n : ℚ) - 1 / 2 < x / 2 ^ e) (h₄ : x / 2 ^ e < (n : ℚ) + 1 / 2) :
    roundToDouble x = (n : ℚ) * 2 ^ e := by
  rw [roundToDouble_of_bounds e he h₁ h₂, roundHalfEven_eq h₃ h₄]

theorem shortestDigits_found {x D k : Nat} {r : Nat × Nat} (fuel : Nat)
    (h : digitsOfLength x D k = some r) : shortestDigits x D (fuel + 1) k = r := by
  rw [shortestDigits, h]

theorem numberToString_of_lt {x : Nat} (h : x < 9007199254740992) :
    numberToString x = decimalDigits x := by
  unfold numberToString
  rw [if_pos h]

/-- Below 2^53 in magnitude an integer prints as its decimal rendering. -/
theorem integerToString_of_abs_lt {n : Int} (h : |n| < 9007199254740992) :
    integerToString n = decimalRendering n := by
  obtain ⟨h₁, h₂⟩ := abs_lt.mp h
  unfold integerToString decimalRendering
  rw [numberToString_of_lt (by omega), numberToString_of_lt (by omega)]

theorem roundsTo_1e21 : roundsTo 1000000000000000000000 1000000000000000000000 = true := by
  unfold roundsTo
  rw [decide_eq_true_eq]
  have := roundToDouble_of_representable 476837158203125 21 (by norm_num) (by norm_num)
  norm_num at this ⊢
  exact this

theorem roundsTo_2e21 : roundsTo 2000000000000000000000 1000000000000000000000 = false := by
  unfold roundsTo
  rw [decide_eq_false_iff_not]
  have := roundToDouble_of_representable 476837158203125 22 (by norm_num) (by norm_num)
  norm_num at this ⊢
  rw [this]
  norm_num

theorem digitsOfLength_1e21 :
    digitsOfLength 1000000000000000000000 22 1 = some (1, 22) := by
  simp only [digitsOfLength]
  norm_num [roundsTo_1e21, roundsTo_2e21]

/-- The number 10^21 prints in exponent form. -/
theorem numberToString_1e21 : numberToString 1000000000000000000000 = lit "1e+21" := by
  have hD : (decimalDigits 1000000000000000000000).length = 22 := by decide
  have hs : shortestDigits 1000000000000000000000 22 (20 + 1) 1 = (1, 22) :=
    shortestDigits_found 20 digitsOfLength_1e21
  unfold numberToString
  rw [if_neg (by norm_num)]
  simp only [hD]
  rw [show 22 - 1 = 20 + 1 from rfl, hs]
  decide

theorem progress_nonneg {elapsed : Int} (h : 0 ≤ elapsed) : 0 ≤ progress elapsed := by
  unfold progress
  refine le_min (roundToDouble_nonneg ?_) zero_le_one
  exact div_nonneg (by exact_mod_cast h) (by norm_num)

theorem progress_le_one (elapsed : Int) : progress elapsed ≤ 1 :=
  min_le_right _ _

theorem progress_mono {t₁ t₂ : Int} (h : t₁ ≤ t₂) : progress t₁ ≤ progress t₂ := by
  unfold progress
  refine min_le_min (roundToDouble_mono ?_) (le_refl 1)
  exact div_le_div_of_nonneg_right (by exact_mod_cast h) (by norm_num)

theorem progress_eq_one {elapsed : Int} (h : 2000 ≤ elapsed) : progress elapsed = 1 := by
  unfold progress
  refine min_eq_right ?_
  have h1 : (1 : ℚ) ≤ (elapsed : ℚ) / 2000 := by
    rw [le_div_iff₀ (by norm_num)]
    exact_mod_cast (by omega : (1 : Int) * 2000 ≤ elapsed)
  calc (1 : ℚ) = roundToDouble 1 := roundToDouble_one.symm
    _ ≤ roundToDouble ((elapsed : ℚ) / 2000) := roundToDouble_mono h1

theorem currentValue_of_done {elapsed target : Int}
    (hrep : roundToDouble (target : ℚ) = target) (h : ¬ progress elapsed < 1) :
    currentValue elapsed target = target := by
  have h1 : progress elapsed = 1 := le_antisymm (progress_le_one elapsed) (not_lt.mp h)
  unfold currentValue
  rw [h1, one_mul, hrep, Int.floor_intCast]

/-- What `animate` leaves in the element's text when the target is a double. -/
theorem animate_textContent (target : Int) (hrep : roundToDouble (target : ℚ) = target)
    (suffix : JSString) (start now : Int) (el : StatNumber) :
    (animate (some target) suffix start now el).textContent =
      integerToString (currentValue (now - start) target) ++ suffix := by
  unfold animate
  by_cases h : progress (now - start) < 1
  · simp only [h, if_true, Option.map_some', renderNumber]
  · simp only [h, if_false, renderNumber, currentValue_of_done hrep h]

/-- What `animate` leaves behind once 2000 ms have elapsed. -/
theorem animate_of_done (target : Int) (suffix : JSString) {start now : Int}
    (el : StatNumber) (h : 2000 ≤ now - start) :
    (animate (some target) suffix start now el).textContent =
        integerToString target ++ suffix ∧
      (animate (some target) suffix start now el).framesRequested = el.framesRequested := by
  have hp : ¬ progress (now - start) < 1 := by
    rw [progress_eq_one h]
    exact lt_irrefl 1
  constructor
  · simp only [animate, hp, if_false, renderNumber]
  · simp only [animate, hp, if_false]

/-- At 580 ms the quotient 580 / 2000 is the double nearest to 0.29, which lies below it. -/
theorem progress_580 : progress 580 = 5224175567749775 / 18014398509481984 := by
  unfold progress
  have h : roundToDouble (((580 : Int) : ℚ) / 2000) =
      ((5224175567749775 : Int) : ℚ) * 2 ^ (-54 : Int) := by
    refine roundToDouble_eval (-54) 5224175567749775 (by norm_num) ?_ ?_ ?_ ?_
    · norm_num [abs_of_pos]
    · norm_num [abs_of_pos]
    · norm_num
    · norm_num
  rw [h]
  norm_num

/-- The product of that double and 100 rounds to a double below 29. -/
theorem currentValue_580_100 : currentValue 580 100 = 28 := by
  unfold currentValue
  rw [progress_580]
  have h : roundToDouble ((5224175567749775 : ℚ) / 18014398509481984 * ((100 : Int) : ℚ)) =
      ((8162774324609023 : Int) : ℚ) * 2 ^ (-48 : Int) := by
    refine roundToDouble_eval (-48) 8162774324609023 (by norm_num) ?_ ?_ ?_ ?_
    · norm_num [abs_of_pos]
    · norm_num [abs_of_pos]
    · norm_num
    · norm_num
  rw [h, Int.floor_eq_iff]
  norm_num

/-- C11, as stated, fails: the target 10^21 is displayed as "1e+21", not as its decimal
digits. -/
theorem counter_decimal_rendering_refuted :
    ¬ ∀ (target : Int) (suffix : JSString) (start now : Int) (el : StatNumber),
        2000 ≤ now - start →
          (animate (some target) suffix start now el).textContent =
            decimalRendering target ++ suffix := by
  intro h
  have h₁ := h 1000000000000000000000 [] 0 2000 {} (by decide)
  rw [(animate_of_done 1000000000000000000000 [] {} (by decide)).1] at h₁
  have h₂ : integerToString 1000000000000000000000 = lit "1e+21" := by
    unfold integerToString
    rw [if_neg (by decide)]
    exact numberToString_1e21
  rw [h₂] at h₁
  revert h₁
  decide

/-- C11, amended. For an integer target of magnitude below 2^53, once `animate` runs with
at least 2000 ms elapsed since the start, the element's text is the decimal rendering of
the target followed by the suffix and no further frame is requested; with target 150 and
no suffix the text is "150". -/
theorem counter_snaps_to_target (target : Int) (suffix : JSString)
    (start now : Int) (el : StatNumber) (htarget : |target| < 9007199254740992)
    (h : 2000 ≤ now - start) :
    (animate (some target) suffix start now el).textContent =
        decimalRendering target ++ suffix ∧
      (animate (some target) suffix start now el).framesRequested = el.framesRequested ∧
      (animate (some 150) [] start now el).textContent = lit "150" := by
  refine ⟨?_, (animate_of_done target suffix el h).2, ?_⟩
  · rw [(animate_of_done target suffix el h).1, integerToString_of_abs_lt htarget]
  · rw [(animate_of_done 150 [] el h).1, integerToString_of_abs_lt (by decide)]
    decide

theorem counter_snaps_to_target_witness :
    (|(150 : Int)| < 9007199254740992 ∧ 2000 ≤ (1730800002016 : Int) - 1730800000000) ∧
      ((animate (some 150) (lit "+") 1730800000000 1730800002016
          { dataTarget := some 150, dataSuffix := some (lit "+"), animated := true,
            textContent := lit "149+", framesRequested := 121 }).textContent =
          decimalRendering 150 ++ lit "+" ∧
        (animate (some 150) (lit "+") 1730800000000 1730800002016
          { dataTarget := some 150, dataSuffix := some (lit "+"), animated := true,
            textContent := lit "149+", framesRequested := 121 }).framesRequested =
          ({ dataTarget := some 150, dataSuffix := some (lit "+"), animated := true,
             textContent := lit "149+", framesRequested := 121 } : StatNumber).framesRequested ∧
        (animate (some 150) [] 1730800000000 1730800002016
          { dataTarget := some 150, dataSuffix := some (lit "+"), animated := true,
            textContent := lit "149+", framesRequested := 121 }).textContent = lit "150") :=
  ⟨⟨by decide, by decide⟩,
    counter_snaps_to_target 150 (lit "+") 1730800000000 1730800002016
      { dataTarget := some 150, dataSuffix := some (lit "+"), animated := true,
        textContent := lit "149+", framesRequested := 121 } (by decide) (by decide)⟩

/-- C15, as stated, fails: at 580 ms with target 100 the counter multiplies the double
nearest to 0.29 by 100 in double precision and displays 28, while
floor(min(580/2000, 1) * 100) is 29. -/
theorem counter_exact_formula_refuted :
    ¬ ∀ (target t : Int) (suffix : JSString) (start : Int) (el : StatNumber),
        0 ≤ target → 0 ≤ t →
          (animate (some target) suffix start (start + t) el).textContent =
            decimalRendering ⌊min ((t : ℚ) / 2000) 1 * (target : ℚ)⌋ ++ suffix := by
  intro h
  have h₁ := h 100 580 [] 0 {} (by decide) (by decide)
  rw [animate_textContent 100 (roundToDouble_intCast 100 (by decide)) [] 0 (0 + 580) {},
    show (0 : Int) + 580 - 0 = 580 from rfl, currentValue_580_100] at h₁
  have h₂ : ⌊min (((580 : Int) : ℚ) / 2000) 1 * ((100 : Int) : ℚ)⌋ = 29 := by
    rw [Int.floor_eq_iff]
    norm_num
  rw [h₂] at h₁
  revert h₁
  decide

/-- C15, amended. For a non-negative integer target that is a double (every integer below
2^53 is) and elapsed times 0 ≤ t₁ ≤ t₂, the number the counter displays at t₁, the floor
of the double-precision product of progress and target, lies between 0 and the target and
is at most the number it displays at t₂; at either time the element's text is that number
followed by the suffix. -/
theorem counter_value_monotone (target : Int) (t₁ t₂ : Int)
    (htarget : 0 ≤ target) (hrep : roundToDouble (target : ℚ) = target)
    (h₁ : 0 ≤ t₁) (h₁₂ : t₁ ≤ t₂) :
    (0 ≤ currentValue t₁ target ∧ currentValue t₁ target ≤ target ∧
      currentValue t₁ target ≤ currentValue t₂ target) ∧
    (∀ (suffix : JSString) (start : Int) (el : StatNumber),
      (animate (some target) suffix start (start + t₁) el).textContent =
          integerToString (currentValue t₁ target) ++ suffix ∧
        (animate (some target) suffix start (start + t₂) el).textContent =
          integerToString (currentValue t₂ target) ++ suffix) := by
  have ht : (0 : ℚ) ≤ (target : ℚ) := by exact_mod_cast htarget
  refine ⟨⟨?_, ?_, ?_⟩, ?_⟩
  · unfold currentValue
    rw [Int.le_floor, Int.cast_zero]
    exact roundToDouble_nonneg (mul_nonneg (progress_nonneg h₁) ht)
  · unfold currentValue
    have hle : progress t₁ * (target : ℚ) ≤ (target : ℚ) := by
      calc progress t₁ * (target : ℚ) ≤ 1 * (target : ℚ) :=
            mul_le_mul_of_nonneg_right (progress_le_one t₁) ht
        _ = (target : ℚ) := one_mul _
    calc ⌊roundToDouble (progress t₁ * (target : ℚ))⌋ ≤ ⌊roundToDouble (target : ℚ)⌋ :=
          Int.floor_mono (roundToDouble_mono hle)
      _ = target := by rw [hrep, Int.floor_intCast]
  · unfold currentValue
    exact Int.floor_mono
      (roundToDouble_mono (mul_le_mul_of_nonneg_right (progress_mono h₁₂) ht))
  · intro suffix start el
    have e₁ := animate_textContent target hrep suffix start (start + t₁) el
    have e₂ := animate_textContent target hrep suffix start (start + t₂) el
    rw [show start + t₁ - start = t₁ by omega] at e₁
    rw [show start + t₂ - start = t₂ by omega] at e₂
    exact ⟨e₁, e₂⟩

theorem counter_value_monotone_witness :
    ((0 : Int) ≤ 100 ∧ roundToDouble ((100 : Int) : ℚ) = ((100 : Int) : ℚ) ∧
      (0 : Int) ≤ 580 ∧ (580 : Int) ≤ 1200) ∧
    ((0 ≤ currentValue 580 100 ∧ currentValue 580 100 ≤ 100 ∧
      currentValue 580 100 ≤ currentValue 1200 100) ∧
    (∀ (suffix : JSString) (start : Int) (el : StatNumber),
      (animate (some 100) suffix start (start + 580) el).textContent =
          integerToString (currentValue 580 100) ++ suffix ∧
        (animate (some 100) suffix start (start + 1200) el).textContent =
          integerToString (currentValue 1200 100) ++ suffix)) :=
  ⟨⟨by decide, roundToDouble_intCast 100 (by decide), by decide, by decide⟩,
    counter_value_monotone 100 580 1200 (by decide) (roundToDouble_intCast 100 (by decide))
      (by decide) (by decide)⟩

/-! ## Tab panels -/

/-- A key that is neither an entry of the table nor an inherited property leaves the
panel as it is. -/
theorem showProjectDetail_of_undefined (key : JSString) (p : DetailPanel)
    (h : lookupEntry projects key = none) : showProjectDetail key p = (.ok (), p) := by
  simp [showProjectDetail, h, pure]

theorem showEquipmentDetail_of_undefined (key : JSString) (p : DetailPanel)
    (h : lookupEntry equipments key = none) : showEquipmentDetail key p = (.ok (), p) := by
  simp [showEquipmentDetail, h, pure]

theorem lookupEntry_eq_none_iff (table : List (JSString × DetailEntry)) (key : JSString) :
    lookupEntry table key = none ↔ table.lookup key = none ∧ key ∉ objectPrototypeKeys := by
  unfold lookupEntry
  cases h : table.lookup key with
  | none => by_cases hk : key ∈ objectPrototypeKeys <;> simp [hk]
  | some e => simp

/-- C12. The claim fails at the key "constructor": the guard reads the inherited property,
which is truthy, so both functions go on. On a panel showing a title and hidden, the title
text is cleared, the container is shown and scrolled to. -/
theorem detail_of_inherited_key_changes_page :
    lit "constructor" ∉ [lit "planos", lit "proceso", lit "resultado"] ∧
    lit "constructor" ∉ [lit "domestico", lit "adosado", lit "autosoportado",
      lit "empotrables", lit "transformadores"] ∧
    (showProjectDetail (lit "constructor") examplePanel).2 ≠ examplePanel ∧
    (showEquipmentDetail (lit "constructor") examplePanel).2 ≠ examplePanel ∧
    (examplePanel.title.map PanelElement.textContent =
        some (lit "Planos Técnicos Detallados") ∧
      (showProjectDetail (lit "constructor") examplePanel).2.title.map
        PanelElement.textContent = some []) ∧
    (showProjectDetail (lit "constructor") examplePanel).2.scrolls = examplePanel.scrolls + 1 := by
  decide

/-! ## `showFieldError` on a missing field -/

/-- Without an element of that id, `field.parentElement` is read from `null` before the
guard is reached. -/
theorem showFieldError_of_missing (fieldName : JSString) (hasError : Bool)
    (message : JSString) (d : Document) (h : findById fieldName d = none) :
    showFieldError fieldName hasError message d = (.error JSError.typeError, d) := by
  simp [showFieldError, bind, getElementById, h, deref, throw, throwThe, MonadExceptOf.throw]

/-- C13. The claim fails on the example page for the field name "telefono", which no
element carries: `showFieldError` raises a `TypeError` (the page itself is left as it
was). -/
theorem showFieldError_missing_field_throws :
    findById (lit "telefono")
        (examplePage "Ana" "ana@hln.pe" "Tablero" "Necesito una cotización" true).elems = none ∧
    showFieldError (lit "telefono") true (lit "Teléfono inválido")
        (examplePage "Ana" "ana@hln.pe" "Tablero" "Necesito una cotización" true).elems =
      (.error JSError.typeError,
        (examplePage "Ana" "ana@hln.pe" "Tablero" "Necesito una cotización" true).elems) ∧
    showFieldError (lit "telefono") false []
        (examplePage "Ana" "ana@hln.pe" "Tablero" "Necesito una cotización" true).elems =
      (.error JSError.typeError,
        (examplePage "Ana" "ana@hln.pe" "Tablero" "Necesito una cotización" true).elems) :=
  ⟨by decide, showFieldError_of_missing _ _ _ _ (by decide),
    showFieldError_of_missing _ _ _ _ (by decide)⟩

/-! ## Sequences of clicks -/

theorem not_active_mem_classRemove (cl : List JSString) :
    lit "active" ∉ classRemove (lit "active") cl := fun h => (mem_classRemove.mp h).2 rfl

theorem active_mem_classAdd (cl : List JSString) : lit "active" ∈ classAdd (lit "active") cl := by
  unfold classAdd
  split
  · assumption
  · simp

theorem countP_modify_one {α : Type} (p : α → Bool) (f : α → α) (hf : ∀ a, p (f a) = true)
    (l : List α) (hl : ∀ a ∈ l, p a = false) (i : Nat) (hi : i < l.length) :
    (l.modify f i).countP p = 1 := by
  induction l generalizing i with
  | nil => simp at hi
  | cons a l ih =>
    have hcount : l.countP p = 0 := by
      rw [List.countP_eq_zero]
      intro b hb
      simp [hl b (List.mem_cons_of_mem _ hb)]
    cases i with
    | zero => simp [List.countP_cons, hf, hcount]
    | succ i =>
      have := ih (fun b hb => hl b (List.mem_cons_of_mem _ hb)) i (by simpa using hi)
      simp [List.countP_cons, this, hl a (List.mem_cons_self _ _)]

/-- The slides `showSlide` leaves: as many as before, `active` on the one at `index` and
on no other. -/
theorem showSlide_shown (slides : List (List JSString)) (index : Int) (h₀ : 0 ≤ index)
    (h₁ : index < slides.length) :
    ∃ slides', showSlide slides index = .ok slides' ∧ slides'.length = slides.length ∧
      (∀ (j : Nat) (cl : List JSString), slides'[j]? = some cl →
        (lit "active" ∈ cl ↔ (j : Int) = index)) ∧
      activeCount slides' = 1 := by
  have hlt : index.toNat < (slides.map (classRemove (lit "active"))).length := by
    rw [List.length_map]; omega
  refine ⟨(slides.map (classRemove (lit "active"))).modify (classAdd (lit "active"))
    index.toNat, ?_, by simp, ?_, ?_⟩
  · unfold showSlide
    simp only [List.length_map]
    rw [if_pos ⟨h₀, h₁⟩]
  · intro j cl hj
    rw [List.getElem?_modify, List.getElem?_map] at hj
    cases hs : slides[j]? with
    | none => simp [hs] at hj
    | some x =>
      simp only [hs, Option.map_some', Option.map_eq_map, Option.some.injEq] at hj
      by_cases hji : index.toNat = j
      · rw [if_pos hji] at hj
        subst hj
        exact ⟨fun _ => by omega, fun _ => active_mem_classAdd _⟩
      · rw [if_neg hji] at hj
        subst hj
        exact ⟨fun h => absurd h (not_active_mem_classRemove x), fun h => by omega⟩
  · unfold activeCount
    refine countP_modify_one _ _ (fun a => by simpa using active_mem_classAdd a) _ ?_ _ hlt
    intro a ha
    obtain ⟨x, -, rfl⟩ := List.mem_map.mp ha
    simpa using not_active_mem_classRemove x

theorem shown_of_showSlide {slides slides' : List (List JSString)} {index : Int}
    (h₀ : 0 ≤ index) (h₁ : index < slides.length)
    (hs : showSlide slides index = .ok slides') :
    slides'.length = slides.length ∧
      VideoCarousel.Shown { slides := slides', currentIndex := index } := by
  obtain ⟨s, hs', hlen, hiff, hcount⟩ := showSlide_shown slides index h₀ h₁
  rw [hs] at hs'
  cases hs'
  exact ⟨hlen, h₀, by rw [hlen]; exact h₁, hiff, hcount⟩

theorem nextSlide_run (c : VideoCarousel) (h₀ : 0 ≤ c.currentIndex)
    (h₁ : c.currentIndex < c.slides.length) :
    ∃ c', nextSlide c = .ok c' ∧ c'.slides.length = c.slides.length ∧ c'.Shown ∧
      c'.currentIndex = (c.currentIndex + 1) % (c.slides.length : Int) := by
  have hi : (c.currentIndex + 1).tmod c.slides.length =
      (c.currentIndex + 1) % (c.slides.length : Int) :=
    Int.tmod_eq_emod (by omega) (by omega)
  have hpos : (0 : Int) < c.slides.length := by omega
  have hge : 0 ≤ (c.currentIndex + 1) % (c.slides.length : Int) :=
    Int.emod_nonneg _ (by omega)
  have hlt : (c.currentIndex + 1) % (c.slides.length : Int) < c.slides.length :=
    Int.emod_lt_of_pos _ hpos
  obtain ⟨s, hs, -⟩ := showSlide_ok c.slides _ hge hlt
  obtain ⟨hlen, hshown⟩ := shown_of_showSlide hge hlt hs
  refine ⟨{ slides := s, currentIndex := (c.currentIndex + 1) % (c.slides.length : Int) },
    ?_, hlen, hshown, rfl⟩
  simp only [nextSlide, hi, hs, bind, Except.bind, pure, Except.pure]

theorem prevSlide_run (c : VideoCarousel) (h₀ : 0 ≤ c.currentIndex)
    (h₁ : c.currentIndex < c.slides.length) :
    ∃ c', prevSlide c = .ok c' ∧ c'.slides.length = c.slides.length ∧ c'.Shown ∧
      c'.currentIndex = (c.currentIndex - 1 + c.slides.length) % (c.slides.length : Int) := by
  have hi : (c.currentIndex - 1 + c.slides.length).tmod c.slides.length =
      (c.currentIndex - 1 + c.slides.length) % (c.slides.length : Int) :=
    Int.tmod_eq_emod (by omega) (by omega)
  have hpos : (0 : Int) < c.slides.length := by omega
  have hge : 0 ≤ (c.currentIndex - 1 + c.slides.length) % (c.slides.length : Int) :=
    Int.emod_nonneg _ (by omega)
  have hlt : (c.currentIndex - 1 + c.slides.length) % (c.slides.length : Int) <
      c.slides.length := Int.emod_lt_of_pos _ hpos
  obtain ⟨s, hs, -⟩ := showSlide_ok c.slides _ hge hlt
  obtain ⟨hlen, hshown⟩ := shown_of_showSlide hge hlt hs
  refine ⟨{ slides := s,
            currentIndex := (c.currentIndex - 1 + c.slides.length) % (c.slides.length : Int) },
    ?_, hlen, hshown, rfl⟩
  simp only [prevSlide, hi, hs, bind, Except.bind, pure, Except.pure]

theorem emod_succ_pred (i n : Int) (h₀ : 0 ≤ i) (h₁ : i < n) :
    ((i + 1) % n - 1 + n) % n = i := by
  by_cases h : i + 1 < n
  · have e₁ : (i + 1) % n = i + 1 := Int.emod_eq_of_lt (by omega) h
    rw [e₁, show i + 1 - 1 + n = i + n * 1 by omega, Int.add_mul_emod_self_left]
    exact Int.emod_eq_of_lt h₀ h₁
  · have hn : i + 1 = n := by omega
    have e₁ : (i + 1) % n = 0 := by rw [hn, Int.emod_self]
    rw [e₁, show (0 : Int) - 1 + n = i by omega]
    exact Int.emod_eq_of_lt h₀ h₁

theorem emod_pred_succ (i n : Int) (h₀ : 0 ≤ i) (h₁ : i < n) :
    ((i - 1 + n) % n + 1) % n = i := by
  by_cases h : 0 < i
  · have e₁ : (i - 1 + n) % n = i - 1 := by
      rw [show i - 1 + n = i - 1 + n * 1 by omega, Int.add_mul_emod_self_left]
      exact Int.emod_eq_of_lt (by omega) (by omega)
    rw [e₁, Int.sub_add_cancel]
    exact Int.emod_eq_of_lt h₀ h₁
  · have hi : i = 0 := by omega
    subst hi
    have e₁ : ((0 : Int) - 1 + n) % n = n - 1 := by
      rw [show (0 : Int) - 1 + n = n - 1 by omega]
      exact Int.emod_eq_of_lt (by omega) (by omega)
    rw [e₁, Int.sub_add_cancel, Int.emod_self]

theorem runClicks_shown (clicks : List SlideClick) (c : VideoCarousel) (hc : c.Shown) :
    ∃ c', runClicks clicks c = .ok c' ∧ c'.slides.length = c.slides.length ∧ c'.Shown := by
  induction clicks generalizing c with
  | nil => exact ⟨c, rfl, rfl, hc⟩
  | cons click clicks ih =>
    have hstep : ∃ c₁, click.run c = .ok c₁ ∧ c₁.slides.length = c.slides.length ∧
        c₁.Shown := by
      cases click with
      | next =>
        obtain ⟨c₁, h, hlen, hs, -⟩ := nextSlide_run c hc.1 hc.2.1
        exact ⟨c₁, h, hlen, hs⟩
      | prev =>
        obtain ⟨c₁, h, hlen, hs, -⟩ := prevSlide_run c hc.1 hc.2.1
        exact ⟨c₁, h, hlen, hs⟩
    obtain ⟨c₁, h₁, hlen₁, hs₁⟩ := hstep
    obtain ⟨c', h', hlen', hs'⟩ := ih c₁ hs₁
    refine ⟨c', ?_, hlen'.trans hlen₁, hs'⟩
    unfold runClicks at h' ⊢
    rw [List.foldlM_cons]
    simp only [bind, Except.bind, h₁]
    exact h'

/-- C14. For a video carousel with n ≥ 1 slides and any finite sequence of clicks on the
two buttons after initialisation: every click succeeds, the current index stays within
0..n-1, exactly one slide carries `active` and it is the slide at the current index, and
`prevSlide` after `nextSlide`, like `nextSlide` after `prevSlide`, gives back the index. -/
theorem video_carousel_invariant (doc : VideoDocument) (clicks : List SlideClick)
    (hn : 1 ≤ doc.slides.length) (hprev : doc.prevBtn = true) (hnext : doc.nextBtn = true) :
    ∃ c₀ c, initVideoCarousel doc = .ok (some c₀) ∧ runClicks clicks c₀ = .ok c ∧
      c.slides.length = doc.slides.length ∧
      (0 ≤ c.currentIndex ∧ c.currentIndex < c.slides.length ∧
        (∀ (j : Nat) (cl : List JSString), c.slides[j]? = some cl →
          (lit "active" ∈ cl ↔ (j : Int) = c.currentIndex)) ∧
        activeCount c.slides = 1) ∧
      (∃ c₁ c₂, nextSlide c = .ok c₁ ∧ prevSlide c₁ = .ok c₂ ∧
        c₂.currentIndex = c.currentIndex) ∧
      (∃ c₁ c₂, prevSlide c = .ok c₁ ∧ nextSlide c₁ = .ok c₂ ∧
        c₂.currentIndex = c.currentIndex) := by
  have hne : doc.slides.isEmpty = false := by
    cases hs : doc.slides with
    | nil => rw [hs] at hn; simp at hn
    | cons _ _ => rfl
  obtain ⟨s, hs, -⟩ := showSlide_ok doc.slides 0 (Int.le_refl 0) (by omega)
  obtain ⟨hlen₀, hshown₀⟩ := shown_of_showSlide (Int.le_refl 0) (by omega) hs
  have hinit : initVideoCarousel doc = .ok (some { slides := s, currentIndex := 0 }) := by
    simp [initVideoCarousel, hne, hprev, hnext, hs, bind, Except.bind, pure, Except.pure]
  obtain ⟨c, hc, hlen, hshown⟩ := runClicks_shown clicks _ hshown₀
  refine ⟨_, c, hinit, hc, hlen.trans hlen₀, hshown, ?_, ?_⟩
  · obtain ⟨c₁, h₁, hl₁, hs₁, hi₁⟩ := nextSlide_run c hshown.1 hshown.2.1
    obtain ⟨c₂, h₂, -, -, hi₂⟩ := prevSlide_run c₁ hs₁.1 hs₁.2.1
    refine ⟨c₁, c₂, h₁, h₂, ?_⟩
    rw [hi₂, hi₁, hl₁]
    exact emod_succ_pred _ _ hshown.1 hshown.2.1
  · obtain ⟨c₁, h₁, hl₁, hs₁, hi₁⟩ := prevSlide_run c hshown.1 hshown.2.1
    obtain ⟨c₂, h₂, -, -, hi₂⟩ := nextSlide_run c₁ hs₁.1 hs₁.2.1
    refine ⟨c₁, c₂, h₁, h₂, ?_⟩
    rw [hi₂, hi₁, hl₁]
    exact emod_pred_succ _ _ hshown.1 hshown.2.1

theorem video_carousel_invariant_witness :
    (1 ≤ ({ slides := [[lit "video-slide", lit "active"], [lit "video-slide"],
                       [lit "video-slide", lit "active"]],
            prevBtn := true, nextBtn := true } : VideoDocument).slides.length ∧
      ({ slides := [[lit "video-slide", lit "active"], [lit "video-slide"],
                    [lit "video-slide", lit "active"]],
         prevBtn := true, nextBtn := true } : VideoDocument).prevBtn = true ∧
      ({ slides := [[lit "video-slide", lit "active"], [lit "video-slide"],
                    [lit "video-slide", lit "active"]],
         prevBtn := true, nextBtn := true } : VideoDocument).nextBtn = true) ∧
    ∃ c₀ c,
      initVideoCarousel
          { slides := [[lit "video-slide", lit "active"], [lit "video-slide"],
                       [lit "video-slide", lit "active"]],
            prevBtn := true, nextBtn := true } = .ok (some c₀) ∧
      runClicks [.prev, .next, .next, .next, .next] c₀ = .ok c ∧
      c.slides.length =
        ({ slides := [[lit "video-slide", lit "active"], [lit "video-slide"],
                      [lit "video-slide", lit "active"]],
           prevBtn := true, nextBtn := true } : VideoDocument).slides.length ∧
      (0 ≤ c.currentIndex ∧ c.currentIndex < c.slides.length ∧
        (∀ (j : Nat) (cl : List JSString), c.slides[j]? = some cl →
          (lit "active" ∈ cl ↔ (j : Int) = c.currentIndex)) ∧
        activeCount c.slides = 1) ∧
      (∃ c₁ c₂, nextSlide c = .ok c₁ ∧ prevSlide c₁ = .ok c₂ ∧
        c₂.currentIndex = c.currentIndex) ∧
      (∃ c₁ c₂, prevSlide c = .ok c₁ ∧ nextSlide c₁ = .ok c₂ ∧
        c₂.currentIndex = c.currentIndex) :=
  ⟨⟨by decide, rfl, rfl⟩,
    video_carousel_invariant
      { slides := [[lit "video-slide", lit "active"], [lit "video-slide"],
                   [lit "video-slide", lit "active"]],
        prevBtn := true, nextBtn := true }
      [.prev, .next, .next, .next, .next] (by decide) rfl rfl⟩

end HLN
